import Mathlib

/-!
Verification development for the `diagram-to-vector` repository
(`scripts/parse_excalidraw.py` and `scripts/convert.py`).

The Python sources are shallowly embedded: JSON numbers are modelled as
integers (`Int`), Python strings as `String`, Python `dict`s as ordered
association lists with overwrite-on-insert (matching insertion-ordered
Python dicts), Python `set`s as lists used only through membership and
insertion, Python `sorted` as the stable `List.insertionSort` over the
code-point lexicographic key order, and exceptions (`KeyError`) as
`Except PyErr`.  Python truthiness of optional strings and
integers is modelled explicitly (`None`, `""` and `0` are falsy).
-/

/-- Errors a modelled Python fragment can raise; only `KeyError` is
reachable in the embedded code (missing dict key / missing JSON field that
is indexed directly). -/
inductive PyErr where
  | keyError
deriving DecidableEq

/-- Truthiness of an optional Python string: `None` and `""` are falsy. -/
def pyTruthyS (s : Option String) : Bool :=
  match s with
  | none => false
  | some s => !s.isEmpty

/-- Truthiness of an optional Python number: `None` and `0` are falsy. -/
def pyTruthyI (n : Option Int) : Bool :=
  match n with
  | none => false
  | some n => n != 0

/-- Python `a or b` on strings: `a` if non-empty, else `b`. -/
def pyOrS (a b : String) : String :=
  if a.isEmpty then b else a

/-- Python `override or default` where `override` is an optional string
(`None` and `""` both fall through to the default). -/
def pyOrOpt (a : Option String) (b : String) : String :=
  match a with
  | none => b
  | some s => if s.isEmpty then b else s

/-- Python `sep.join(parts)`. -/
def pyJoin (sep : String) : List String → String
  | [] => ""
  | [s] => s
  | s :: rest => s ++ sep ++ pyJoin sep rest

/-- Python `str.lower()` (ASCII fragment, per-character). -/
def pyLower (s : String) : String :=
  String.mk (s.toList.map Char.toLower)

/-- Worker for `subRuns`: `inRun` records whether the previous character
belonged to a run of class characters (in which case the run's underscore
has already been emitted). -/
def subRunsAux (p : Char → Bool) : Bool → List Char → List Char
  | _, [] => []
  | inRun, c :: cs =>
    if p c then
      if inRun then subRunsAux p true cs
      else '_' :: subRunsAux p true cs
    else c :: subRunsAux p false cs

/-- Replace every maximal run of characters satisfying `p` by a single
underscore; models `re.sub(r'[class]+', '_', s)` where `p` is the class. -/
def subRuns (p : Char → Bool) (l : List Char) : List Char :=
  subRunsAux p false l

/-- Python `s.strip()`: drop leading and trailing whitespace (ASCII
fragment). -/
def pyStripWS (s : String) : String :=
  String.mk (((s.data.dropWhile Char.isWhitespace).reverse.dropWhile
    Char.isWhitespace).reverse)

/-- Python `s.strip('_')`: drop leading and trailing underscores. -/
def stripUnderscores (l : List Char) : List Char :=
  ((l.dropWhile (· == '_')).reverse.dropWhile (· == '_')).reverse

/-- Does the character list start with an ASCII digit
(models `sanitized[0].isdigit()` on a non-empty string)? -/
def headIsDigit (l : List Char) : Bool :=
  match l with
  | [] => false
  | c :: _ => c.isDigit

/-- Core of `sanitize_id` (`parse_excalidraw.py` lines 24-29): the part
before the collision loop, i.e. the behaviour without a collision set. -/
def sanitizeCore (text : String) : String :=
  let text := if text.isEmpty then "node" else text
  let lowered := (pyLower text).toList
  let s1 := subRuns (fun c => !c.isAlphanum) lowered
  let s2 := subRuns (fun c => c == '_') s1
  let s3 := stripUnderscores s2
  if s3.isEmpty || headIsDigit s3 then String.mk ("node_".toList ++ s3)
  else String.mk s3

/-- The `while sanitized in existing` collision loop of `sanitize_id`,
with explicit fuel (the Python loop always terminates because the
candidates `orig_2`, `orig_3`, ... are pairwise distinct and the set is
finite; `existing.length + 2` fuel is more than enough). -/
def pickFree (orig : String) (existing : List String) :
    String → Nat → Nat → String
  | s, _, 0 => s
  | s, i, fuel + 1 =>
    if existing.contains s then
      pickFree orig existing (orig ++ "_" ++ toString i) (i + 1) fuel
    else s

/-- `sanitize_id(text, existing)` from `parse_excalidraw.py`.  The Python
set is modelled as a list threaded through the result (to mirror the
in-place `existing.add`).  Note the faithful modelling of `if existing:`
— an *empty* set is falsy in Python, so the whole collision branch
(including the `add`) is skipped when the set is empty. -/
def sanitize_id (text : String) (existing : Option (List String)) :
    String × Option (List String) :=
  let sanitized := sanitizeCore text
  match existing with
  | none => (sanitized, none)
  | some ex =>
    if ex.isEmpty then (sanitized, some ex)
    else
      let accepted := pickFree sanitized ex sanitized 2 (ex.length + 2)
      (accepted, some (accepted :: ex))

/-- Reference definition of the sanitization rule, translated from the
spec's words (spec.md §4.2 "Sanitization rule"): lowercase the input;
replace every maximal run of characters outside `[a-z0-9]` with a single
underscore; collapse repeated underscores; strip leading/trailing
underscores; if the result is empty, substitute the literal `"node"`;
if the result starts with a digit, prefix `"node_"`. -/
def specSanitize (text : String) : String :=
  let lowered := (pyLower text).toList
  let replaced := subRuns (fun c => !(c.isLower || c.isDigit)) lowered
  let collapsed := subRuns (fun c => c == '_') replaced
  let stripped := stripUnderscores collapsed
  let base := if stripped.isEmpty then "node".toList else stripped
  if headIsDigit base then String.mk ("node_".toList ++ base)
  else String.mk base

/-- Amended reference definition of the sanitization rule: identical to
`specSanitize` except where the code differs — the empty-input check
happens *before* the pipeline (so `""` is first replaced by `"node"` and
then sanitized), and a pipeline result that comes out empty receives the
`"node_"` prefix (yielding the literal `"node_"`) instead of being
replaced by `"node"`. -/
def specSanitizeAmended (text : String) : String :=
  if text.isEmpty then "node"
  else
    let lowered := (pyLower text).toList
    let replaced := subRuns (fun c => !(c.isLower || c.isDigit)) lowered
    let collapsed := subRuns (fun c => c == '_') replaced
    let stripped := stripUnderscores collapsed
    if stripped.isEmpty || headIsDigit stripped then
      String.mk ("node_".toList ++ stripped)
    else String.mk stripped

/-- An Excalidraw element (`elements[]` entry of the native file).  Every
field the importer consumes is optional, mirroring `el.get(...)` access;
`startBindingId` and `endBindingId` model `startBinding.elementId` and
`endBinding.elementId`. -/
structure Element where
  id : Option String := none
  type : Option String := none
  isDeleted : Bool := false
  text : Option String := none
  containerId : Option String := none
  x : Option Int := none
  y : Option Int := none
  width : Option Int := none
  height : Option Int := none
  backgroundColor : Option String := none
  strokeColor : Option String := none
  strokeStyle : Option String := none
  startBindingId : Option String := none
  endBindingId : Option String := none
  frameId : Option String := none
  name : Option String := none
deriving DecidableEq

/-- `find_bound_text(eid, elements)`: text of the first text element whose
`containerId` equals `eid`, or `""`. -/
def find_bound_text (eid : Option String) (elements : List Element) : String :=
  match elements.find? (fun el => el.type == some "text" && el.containerId == eid) with
  | some el => el.text.getD ""
  | none => ""

/-- `excalidraw_shape(shape)`: identity on the six recognized type names,
anything else maps to `"rectangle"`. -/
def excalidraw_shape (shape : String) : String :=
  if shape == "rectangle" || shape == "diamond" || shape == "ellipse" ||
     shape == "arrow" || shape == "line" || shape == "text" then shape
  else "rectangle"

/-- Style sub-object of an imported node (only `fillColor`/`strokeColor`
are ever produced by the importer). -/
structure EStyle where
  fillColor : Option String := none
  strokeColor : Option String := none
deriving DecidableEq

/-- A node as produced by the importer (pass 1).  `confidence` is the
constant 1.0 of the source, modelled as the integer 1. -/
structure ENode where
  id : String
  type : String
  label : String
  x : Int
  y : Int
  width : Int
  height : Int
  confidence : Nat := 1
  style : Option EStyle := none
deriving DecidableEq

/-- Style sub-object of an imported edge. -/
structure EEdgeStyle where
  strokeStyle : String
deriving DecidableEq

/-- An edge as produced by the importer (pass 2). -/
structure EEdge where
  id : String
  fromId : String
  toId : String
  type : String
  confidence : Nat := 1
  label : Option String := none
  style : Option EEdgeStyle := none
deriving DecidableEq

/-- A group as produced by the importer (pass 3). -/
structure EGroup where
  id : String
  label : String
  nodeIds : List String
deriving DecidableEq

/-- The importer's output document. -/
structure EDiagram where
  diagramType : String
  source : String
  sourceFile : String
  overallConfidence : Nat := 1
  nodes : List ENode
  edges : List EEdge
  groups : List EGroup
deriving DecidableEq

/-- Membership in the importer's `id_map` (a Python dict keyed by
`el.get('id')`, hence by an optional string). -/
def idMapMem (m : List (Option String × String)) (k : Option String) : Bool :=
  m.any (fun p => p.1 == k)

/-- Lookup in the importer's `id_map` (`id_map.get(k)` / `id_map[k]`). -/
def idMapGet (m : List (Option String × String)) (k : Option String) : Option String :=
  (m.find? (fun p => p.1 == k)).map (·.2)

/-- Insertion into the importer's `id_map` (`id_map[k] = v`): overwrite in
place if the key exists, else append (insertion-ordered dict). -/
def idMapInsert (m : List (Option String × String)) (k : Option String) (v : String) :
    List (Option String × String) :=
  if m.any (fun p => p.1 == k) then
    m.map (fun p => if p.1 == k then (p.1, v) else p)
  else m ++ [(k, v)]

/-- Python `round` on an already-integral JSON number (the embedding
models JSON numbers as integers). -/
def pyRound (n : Int) : Int := n

/-- Is the element skipped by pass 1 of the importer
(`el.get('type') in ('arrow', 'line', 'text') or el.get('isDeleted')`)? -/
def pass1Skips (el : Element) : Bool :=
  el.type == some "arrow" || el.type == some "line" || el.type == some "text" ||
    el.isDeleted

/-- Label resolution of pass 1 (`parse_excalidraw.py` line 67):
`find_bound_text(...) or el.get('text', '') or f"Shape {count+1}"`,
where `count` is the number of shapes processed so far. -/
def pass1Label (allEls : List Element) (el : Element) (count : Nat) : String :=
  pyOrS (find_bound_text el.id allEls)
    (pyOrS (el.text.getD "") ("Shape " ++ toString (count + 1)))

/-- Style construction of pass 1 (lines 71-75): `fillColor` only when the
background is truthy and not the `"transparent"` sentinel, `strokeColor`
only when truthy; the style object is omitted when both are absent. -/
def pass1Style (el : Element) : Option EStyle :=
  let fill := if pyTruthyS el.backgroundColor && !(el.backgroundColor == some "transparent")
    then el.backgroundColor else none
  let stroke := if pyTruthyS el.strokeColor then el.strokeColor else none
  if fill.isSome || stroke.isSome then some { fillColor := fill, strokeColor := stroke }
  else none

/-- Pass 1 of `parse_excalidraw` (lines 63-86): iterate the elements,
skipping connectors, free text and deleted elements; resolve the label,
sanitize it against the running collision set, record the native-id
mapping, and build the node. -/
def pass1 (allEls : List Element) :
    List Element → List String → List (Option String × String) → List ENode →
    List String × List (Option String × String) × List ENode
  | [], ex, im, acc => (ex, im, acc)
  | el :: rest, ex, im, acc =>
    if pass1Skips el then pass1 allEls rest ex im acc
    else
      let label := pass1Label allEls el acc.length
      let res := sanitize_id label (some ex)
      let nid := res.1
      let ex' := res.2.getD ex
      let im' := idMapInsert im el.id nid
      let node : ENode :=
        { id := nid
          type := excalidraw_shape (el.type.getD "")
          label := pyStripWS label
          x := pyRound (el.x.getD 0)
          y := pyRound (el.y.getD 0)
          width := pyRound (el.width.getD 100)
          height := pyRound (el.height.getD 50)
          style := pass1Style el }
      pass1 allEls rest ex' im' (acc ++ [node])

/-- Pass 2 of `parse_excalidraw` (lines 89-116): connectors with both
bindings present and both bound native ids registered in pass 1 become
edges; everything else is silently dropped. -/
def pass2 (allEls : List Element) (im : List (Option String × String)) :
    List Element → List EEdge → List EEdge
  | [], acc => acc
  | el :: rest, acc =>
    if !(el.type == some "arrow" || el.type == some "line") || el.isDeleted then
      pass2 allEls im rest acc
    else
      let start := el.startBindingId
      let stop := el.endBindingId
      if !pyTruthyS start || !pyTruthyS stop then pass2 allEls im rest acc
      else
        let fr := idMapGet im start
        let tgt := idMapGet im stop
        if !pyTruthyS fr || !pyTruthyS tgt then pass2 allEls im rest acc
        else
          let frS := fr.getD ""
          let toS := tgt.getD ""
          let lbl := find_bound_text el.id allEls
          let edge : EEdge :=
            { id := frS ++ "_to_" ++ toS
              fromId := frS
              toId := toS
              type := if el.type == some "arrow" then "arrow" else "line"
              label := if lbl.isEmpty then none else some (pyStripWS lbl)
              style := if el.strokeStyle == some "dashed" then some { strokeStyle := "dashed" }
                else none }
          pass2 allEls im rest (acc ++ [edge])

/-- Pass 3 of `parse_excalidraw` (lines 119-125): non-deleted frames
become groups; the group id is sanitized against the same running set,
and the group is kept only when it contains at least one registered
shape. -/
def pass3 (allEls : List Element) (im : List (Option String × String)) :
    List Element → List String → List EGroup → List EGroup
  | [], _, acc => acc
  | el :: rest, ex, acc =>
    if el.type == some "frame" && !el.isDeleted then
      let res := sanitize_id (el.name.getD "Group") (some ex)
      let gid := res.1
      let ex' := res.2.getD ex
      let contained := allEls.filterMap (fun e =>
        if e.frameId == el.id && idMapMem im e.id then idMapGet im e.id else none)
      if contained.isEmpty then pass3 allEls im rest ex' acc
      else pass3 allEls im rest ex'
        (acc ++ [{ id := gid, label := el.name.getD "Group", nodeIds := contained }])
    else pass3 allEls im rest ex acc

/-- `parse_excalidraw(path)` as a pure function of the decoded element
list (file reading is outside the model; `path` only feeds the
`sourceFile` metadata field). -/
def parse_excalidraw (path : String) (elements : List Element) : EDiagram :=
  let p1 := pass1 elements elements [] [] []
  let ex1 := p1.1
  let im := p1.2.1
  let nodes := p1.2.2
  let edges := pass2 elements im elements []
  let groups := pass3 elements im elements ex1 []
  { diagramType := if nodes.any (fun n => n.type == "diamond") then "flowchart"
      else "architecture"
    source := "excalidraw"
    sourceFile := path
    overallConfidence := 1
    nodes := nodes
    edges := edges
    groups := groups }

/-- Style sub-object of a renderer-side node (`convert.py`). -/
structure NodeStyle where
  fillColor : Option String := none
  strokeColor : Option String := none
  strokeWidth : Option Int := none
deriving DecidableEq

/-- A node of the intermediate Diagram as consumed by `DiagramConverter`.
Only `id` is required (the constructor indexes `n['id']`); every other
field is accessed with `.get` and a default, except that `to_svg` indexes
`x` and `y` directly. -/
structure Node where
  id : String
  type : Option String := none
  label : Option String := none
  x : Option Int := none
  y : Option Int := none
  width : Option Int := none
  height : Option Int := none
  style : Option NodeStyle := none
deriving DecidableEq

/-- Style sub-object of a renderer-side edge. -/
structure EdgeStyle where
  strokeStyle : Option String := none
deriving DecidableEq

/-- An edge of the intermediate Diagram.  `fromId`/`toId` model the
required `from`/`to` fields of the data model (`to_svg` indexes them
directly; the other renderers read them with a `''` default). -/
structure Edge where
  id : String := ""
  fromId : String := ""
  toId : String := ""
  type : Option String := none
  label : Option String := none
  style : Option EdgeStyle := none
deriving DecidableEq

/-- A group of the intermediate Diagram (named `DGroup` because Lean's
library already owns the name `Group`). -/
structure DGroup where
  id : Option String := none
  label : Option String := none
  nodeIds : List String := []
deriving DecidableEq

/-- The intermediate Diagram as consumed by `DiagramConverter.__init__`
(`title` defaults to `''`; extra fields the converter never reads are
omitted). -/
structure Diagram where
  title : String := ""
  nodes : List Node := []
  edges : List Edge := []
  groups : List DGroup := []
deriving DecidableEq

/-- Insertion into the converter's node dict (`{n['id']: n for n in ...}`):
overwrite in place when the key exists, else append. -/
def dictInsert (m : List (String × Node)) (k : String) (v : Node) :
    List (String × Node) :=
  if m.any (fun p => p.1 == k) then
    m.map (fun p => if p.1 == k then (p.1, v) else p)
  else m ++ [(k, v)]

/-- The converter's `self.nodes` dict, built in input order. -/
def nodesDict (d : Diagram) : List (String × Node) :=
  d.nodes.foldl (fun m n => dictInsert m n.id n) []

/-- Dict lookup `self.nodes.get(k)`. -/
def dictGet (m : List (String × Node)) (k : String) : Option Node :=
  (m.find? (fun p => p.1 == k)).map (·.2)

/-- Dict membership `k in self.nodes`. -/
def dictMem (m : List (String × Node)) (k : String) : Bool :=
  m.any (fun p => p.1 == k)

/-- Dict values `self.nodes.values()`, in insertion order. -/
def dictValues (m : List (String × Node)) : List Node :=
  m.map (·.2)

/-- Strict lexicographic comparison of character lists by code point:
the order Python uses to compare strings. -/
def listLexLt : List Char → List Char → Bool
  | [], [] => false
  | [], _ :: _ => true
  | _ :: _, [] => false
  | a :: as, b :: bs => if a < b then true else if b < a then false else listLexLt as bs

/-- Python's `<=` on strings. -/
def pyStrLe (a b : String) : Bool := !(listLexLt b.data a.data)

/-- `sorted(self.nodes.items())`: a stable ascending sort by key, like
Python's (keys are distinct in a dict, so the tuple comparison never
reaches the values).  Python's stable sort is modelled by the stable
`List.insertionSort`. -/
def sortedNodePairs (d : Diagram) : List (String × Node) :=
  List.insertionSort (fun a b => pyStrLe a.1 b.1 = true) (nodesDict d)

/-- `sorted(self.edges, key=lambda e: e.get('id', ''))` (a stable sort,
like Python's). -/
def sortedEdges (d : Diagram) : List Edge :=
  List.insertionSort (fun a b => pyStrLe a.id b.id = true) d.edges

/-- `sorted(self.groups, key=lambda g: g.get('id', ''))`. -/
def sortedGroups (d : Diagram) : List DGroup :=
  List.insertionSort (fun a b => pyStrLe (a.id.getD "") (b.id.getD "") = true) d.groups

/-- `sorted(...)` on a list of strings (group member ids). -/
def sortStrings (l : List String) : List String :=
  List.insertionSort (fun a b => pyStrLe a b = true) l

/-- `DEFAULT_LAYOUTS.get(fmt, 'structure')`. -/
def defaultLayout (fmt : String) : String :=
  if fmt == "mermaid" then "structure"
  else if fmt == "graphviz" then "structure"
  else if fmt == "drawio" then "position"
  else if fmt == "svg" then "position"
  else "structure"

/-- `get_layout(fmt)`: the override (when truthy) or the format default. -/
def getLayout (layoutOverride : Option String) (fmt : String) : String :=
  pyOrOpt layoutOverride (defaultLayout fmt)

/-- Python `max(xs)` over a non-empty integer list (the `getD 0` branch is
unreachable at every call site, which guards non-emptiness). -/
def pyMaxI (l : List Int) : Int :=
  (l.foldl (fun acc x => some (match acc with | none => x | some m => max m x)) none).getD 0

/-- Python `min(xs)` over a non-empty integer list. -/
def pyMinI (l : List Int) : Int :=
  (l.foldl (fun acc x => some (match acc with | none => x | some m => min m x)) none).getD 0

/-- Is `strokeStyle` of the edge's style `"dashed"`
(`edge.get('style', {}).get('strokeStyle') == 'dashed'`)? -/
def edgeDashed (e : Edge) : Bool :=
  (match e.style with | some s => s.strokeStyle | none => none) == some "dashed"

/-- Mermaid shape delimiter table `MERMAID_SHAPES` with its rectangle
fallback. -/
def mermaidShapes (shape : String) : String × String :=
  if shape == "rectangle" then ("[\"", "\"]")
  else if shape == "diamond" then ("\x7b", "\x7d")
  else if shape == "circle" then ("((\"", "\"))")
  else if shape == "ellipse" then ("([\"", "\"])")
  else if shape == "cylinder" then ("[(\"", "\")]")
  else if shape == "parallelogram" then ("[/\"", "\"/]")
  else ("[\"", "\"]")

/-- Python `s.replace(old, new)` for a single-character pattern
(the only shape of `str.replace` the converter uses). -/
def pyReplaceChar (c : Char) (rep : List Char) (s : String) : String :=
  String.mk (s.data.flatMap (fun x => if x == c then rep else [x]))

/-- Mermaid label: `node.get('label', nid)` with quote and bracket
substitution (`"` to `'`, `[` to `(`, `]` to `)`). -/
def mermaidLabel (nid : String) (n : Node) : String :=
  pyReplaceChar ']' ")".data
    (pyReplaceChar '[' "(".data
      (pyReplaceChar '"' [Char.ofNat 39] (n.label.getD nid)))

/-- `_mermaid_node(nid, node)`: one node declaration line. -/
def mermaidNodeLine (nid : String) (n : Node) : String :=
  let shape := n.type.getD "rectangle"
  let pre := (mermaidShapes shape).1
  let suf := (mermaidShapes shape).2
  "    " ++ nid ++ pre ++ mermaidLabel nid n ++ suf

/-- `_style_to_mermaid(node_id, style)`: `None` for a falsy style dict or
when no truthy property is present. -/
def styleToMermaid (nid : String) (st : Option NodeStyle) : Option String :=
  match st with
  | none => none
  | some s =>
    let parts :=
      (if pyTruthyS s.fillColor then ["fill:" ++ s.fillColor.getD ""] else []) ++
      (if pyTruthyS s.strokeColor then ["stroke:" ++ s.strokeColor.getD ""] else []) ++
      (if pyTruthyI s.strokeWidth then
        ["stroke-width:" ++ toString (s.strokeWidth.getD 0) ++ "px"] else [])
    if parts.isEmpty then none
    else some ("style " ++ nid ++ " " ++ pyJoin "," parts)

/-- Title block of `to_mermaid` (emitted only for a truthy title). -/
def mermaidTitleLines (d : Diagram) : List String :=
  if d.title.isEmpty then [] else ["---", "title: " ++ d.title, "---"]

/-- The flow direction of `to_mermaid`: `LR` when position layout is
active, nodes exist, and the horizontal span strictly exceeds the
vertical span; `TD` otherwise. -/
def mermaidDirection (lay : Option String) (d : Diagram) : String :=
  if getLayout lay "mermaid" == "position" && !(nodesDict d).isEmpty then
    let xs := (dictValues (nodesDict d)).map (fun n => n.x.getD 0)
    let ys := (dictValues (nodesDict d)).map (fun n => n.y.getD 0)
    if pyMaxI xs - pyMinI xs > pyMaxI ys - pyMinI ys then "LR" else "TD"
  else "TD"

/-- Membership of a node id in the `grouped` set (union of all
`g.get('nodeIds', [])`). -/
def isGrouped (d : Diagram) (nid : String) : Bool :=
  d.groups.any (fun g => g.nodeIds.contains nid)

/-- Top-level node declarations of `to_mermaid` (grouped nodes are
skipped by the `continue`). -/
def mermaidTopDecls (d : Diagram) : List String :=
  (sortedNodePairs d).filterMap (fun p =>
    if isGrouped d p.1 then none else some (mermaidNodeLine p.1 p.2))

/-- One `subgraph` block of `to_mermaid` (member declarations only for
ids present in the node dict). -/
def mermaidGroupBlock (d : Diagram) (g : DGroup) : List String :=
  ["", "    subgraph " ++ g.id.getD "group" ++ "[" ++ g.label.getD "" ++ "]"] ++
  ((sortStrings g.nodeIds).filterMap (fun nid =>
    (dictGet (nodesDict d) nid).map (fun n => "    " ++ mermaidNodeLine nid n))) ++
  ["    end"]

/-- One edge line of `to_mermaid`: dashed arrow for a dashed style,
overridden to the undirected `---` token for `type == "line"`, with an
inline `|label|` segment when a label is present. -/
def mermaidEdgeLine (e : Edge) : String :=
  let arrow := if edgeDashed e then "-.->" else "-->"
  let arrow := if e.type == some "line" then "---" else arrow
  let label := e.label.getD ""
  if !label.isEmpty then
    "    " ++ e.fromId ++ " " ++ arrow ++ "|" ++ label ++ "| " ++ e.toId
  else
    "    " ++ e.fromId ++ " " ++ arrow ++ " " ++ e.toId

/-- Trailing style declarations of `to_mermaid`. -/
def mermaidStyleLines (d : Diagram) : List String :=
  (sortedNodePairs d).filterMap (fun p =>
    (styleToMermaid p.1 p.2.style).map (fun s => "    " ++ s))

/-- All lines of `to_mermaid`, in emission order. -/
def toMermaidLines (lay : Option String) (d : Diagram) : List String :=
  mermaidTitleLines d ++
  ["flowchart " ++ mermaidDirection lay d] ++
  mermaidTopDecls d ++
  ((sortedGroups d).map (mermaidGroupBlock d)).flatten ++
  [""] ++
  (sortedEdges d).map mermaidEdgeLine ++
  (let sl := mermaidStyleLines d
   if sl.isEmpty then [] else "" :: sl)

/-- `to_mermaid()`: the joined document. -/
def toMermaid (lay : Option String) (d : Diagram) : String :=
  pyJoin "\n" (toMermaidLines lay d)

/-- Graphviz shape-name table `GRAPHVIZ_SHAPES` with its `box` fallback. -/
def gvShape (shape : String) : String :=
  if shape == "rectangle" then "box"
  else if shape == "diamond" then "diamond"
  else if shape == "circle" then "circle"
  else if shape == "ellipse" then "ellipse"
  else if shape == "cylinder" then "cylinder"
  else if shape == "parallelogram" then "parallelogram"
  else "box"

/-- Graphviz label: `node.get('label', nid).replace('"', '\\"')`. -/
def gvLabel (nid : String) (n : Node) : String :=
  pyReplaceChar '"' "\\\"".data (n.label.getD nid)

/-- One node statement of `to_graphviz`. -/
def gvNodeLine (nid : String) (n : Node) : String :=
  let shape := gvShape (n.type.getD "rectangle")
  let st := n.style.getD {}
  let attrs :=
    ["label=\"" ++ gvLabel nid n ++ "\"", "shape=" ++ shape] ++
    (if pyTruthyS st.fillColor then
      ["fillcolor=\"" ++ st.fillColor.getD "" ++ "\"", "style=filled"] else []) ++
    (if pyTruthyS st.strokeColor then
      ["color=\"" ++ st.strokeColor.getD "" ++ "\""] else [])
  "    " ++ nid ++ " [" ++ pyJoin ", " attrs ++ "];"

/-- One edge statement of `to_graphviz`. -/
def gvEdgeLine (e : Edge) : String :=
  let attrs :=
    (if pyTruthyS e.label then ["label=\"" ++ e.label.getD "" ++ "\""] else []) ++
    (if edgeDashed e then ["style=dashed"] else [])
  let attrStr := if !attrs.isEmpty then " [" ++ pyJoin ", " attrs ++ "]" else ""
  "    " ++ e.fromId ++ " -> " ++ e.toId ++ attrStr ++ ";"

/-- One cluster block of `to_graphviz`. -/
def gvGroupBlock (g : DGroup) : List String :=
  ["", "    subgraph cluster_" ++ g.id.getD "" ++ " \x7b",
   "        label=\"" ++ g.label.getD "" ++ "\";"] ++
  ((sortStrings g.nodeIds).map (fun nid => "        " ++ nid ++ ";")) ++
  ["    \x7d"]

/-- All lines of `to_graphviz`, in emission order (the title line, when
truthy, is inserted right after the header line). -/
def toGraphvizLines (d : Diagram) : List String :=
  (if d.title.isEmpty then
    ["digraph G \x7b", "    rankdir=TB;", "    node [fontname=\"Arial\"];", ""]
  else
    ["digraph G \x7b", "    label=\"" ++ d.title ++ "\";", "    rankdir=TB;",
     "    node [fontname=\"Arial\"];", ""]) ++
  (sortedNodePairs d).map (fun p => gvNodeLine p.1 p.2) ++
  [""] ++
  (sortedEdges d).map gvEdgeLine ++
  ((sortedGroups d).map gvGroupBlock).flatten ++
  ["\x7d"]

/-- `to_graphviz()`: the joined document. -/
def toGraphviz (d : Diagram) : String :=
  pyJoin "\n" (toGraphvizLines d)

/-- One step of Python's `html.escape` (with quoting), per character. -/
def htmlEscapeChar (c : Char) : List Char :=
  if c == '&' then "&amp;".toList
  else if c == '<' then "&lt;".toList
  else if c == '>' then "&gt;".toList
  else if c == '"' then "&quot;".toList
  else if c.toNat == 39 then "&#x27;".toList
  else [c]

/-- Python `html.escape(s)` (quote=True, the default). -/
def html_escape (s : String) : String :=
  String.mk (s.toList.flatMap htmlEscapeChar)

/-- Drawio base-style table `DRAWIO_SHAPES` with its rectangle fallback. -/
def drawioShape (shape : String) : String :=
  if shape == "rectangle" then "rounded=0;whiteSpace=wrap;html=1;"
  else if shape == "diamond" then "rhombus;whiteSpace=wrap;html=1;"
  else if shape == "circle" then "ellipse;whiteSpace=wrap;html=1;aspect=fixed;"
  else if shape == "ellipse" then "ellipse;whiteSpace=wrap;html=1;"
  else if shape == "cylinder" then "shape=cylinder3;whiteSpace=wrap;html=1;"
  else if shape == "parallelogram" then "shape=parallelogram;whiteSpace=wrap;html=1;"
  else "rounded=0;whiteSpace=wrap;html=1;"

/-- One node cell of `to_drawio` (geometry read with defaults
`x=0, y=0, width=120, height=60`). -/
def drawioNodeCell (nid : String) (n : Node) : String :=
  let label := html_escape (n.label.getD nid)
  let st := n.style.getD {}
  let styleParts :=
    [drawioShape (n.type.getD "rectangle")] ++
    (if pyTruthyS st.fillColor then ["fillColor=" ++ st.fillColor.getD "" ++ ";"] else []) ++
    (if pyTruthyS st.strokeColor then ["strokeColor=" ++ st.strokeColor.getD "" ++ ";"] else [])
  let style := pyJoin "" styleParts
  "        <mxCell id=\"cell_" ++ nid ++ "\" value=\"" ++ label ++ "\" style=\"" ++
    style ++ "\" vertex=\"1\" parent=\"1\">\n          <mxGeometry x=\"" ++
    toString (n.x.getD 0) ++ "\" y=\"" ++ toString (n.y.getD 0) ++ "\" width=\"" ++
    toString (n.width.getD 120) ++ "\" height=\"" ++ toString (n.height.getD 60) ++
    "\" as=\"geometry\"/>\n        </mxCell>"

/-- One edge cell of `to_drawio` (orthogonal routing style, extended with
`dashed=1;` for a dashed stroke style). -/
def drawioEdgeCell (e : Edge) : String :=
  let label := html_escape (e.label.getD "")
  let style := "edgeStyle=orthogonalEdgeStyle;rounded=0;html=1;" ++
    (if edgeDashed e then "dashed=1;" else "")
  "        <mxCell id=\"cell_" ++ e.id ++ "\" value=\"" ++ label ++ "\" style=\"" ++
    style ++ "\" edge=\"1\" parent=\"1\" source=\"cell_" ++ e.fromId ++
    "\" target=\"cell_" ++ e.toId ++
    "\">\n          <mxGeometry relative=\"1\" as=\"geometry\"/>\n        </mxCell>"

/-- `to_drawio()`: node cells then edge cells inside the fixed mxfile
envelope. -/
def toDrawio (d : Diagram) : String :=
  let cells := (sortedNodePairs d).map (fun p => drawioNodeCell p.1 p.2) ++
    (sortedEdges d).map drawioEdgeCell
  "<?xml version=\"1.0\" encoding=\"UTF-8\"?>\n<mxfile host=\"diagram-to-vector\" type=\"device\">\n  <diagram name=\"Page-1\" id=\"diagram_1\">\n    <mxGraphModel dx=\"1000\" dy=\"600\" grid=\"1\" gridSize=\"10\">\n      <root>\n        <mxCell id=\"0\"/>\n        <mxCell id=\"1\" parent=\"0\"/>\n" ++
    pyJoin "\n" cells ++
    "\n      </root>\n    </mxGraphModel>\n  </diagram>\n</mxfile>"

/-- Render the Python float `k / 2` (for an integer `k`) the way an
f-string does: one decimal place, `.0` for even `k`, `.5` for odd `k`. -/
def halfStr (k : Int) : String :=
  if k % 2 == 0 then toString (k / 2) ++ ".0"
  else if k ≥ 0 then toString (k / 2) ++ ".5"
  else "-" ++ toString ((-k) / 2) ++ ".5"

/-- One edge of `to_svg`: `none` when either endpoint id is not in the
node dict (the edge is skipped), a `KeyError` when an endpoint node lacks
`x` or `y` (indexed directly), otherwise the `<line .../>` element.
Coordinates are midpoints, so they are rendered as halves (`halfStr` of
the doubled value). -/
def svgEdgeElem (m : List (String × Node)) (ox oy : Int) (e : Edge) :
    Except PyErr (Option String) :=
  match dictGet m e.fromId, dictGet m e.toId with
  | some fn, some tn =>
    match fn.x, fn.y, tn.x, tn.y with
    | some fx, some fy, some tx, some ty =>
      let x1 := 2 * fx + fn.width.getD 120 + 2 * ox
      let y1 := 2 * fy + fn.height.getD 60 + 2 * oy
      let x2 := 2 * tx + tn.width.getD 120 + 2 * ox
      let y2 := 2 * ty + tn.height.getD 60 + 2 * oy
      let dash := if edgeDashed e then "stroke-dasharray=\"8,4\"" else ""
      Except.ok (some ("  <line x1=\"" ++ halfStr x1 ++ "\" y1=\"" ++ halfStr y1 ++
        "\" x2=\"" ++ halfStr x2 ++ "\" y2=\"" ++ halfStr y2 ++
        "\" stroke=\"#333\" stroke-width=\"2\" " ++ dash ++
        " marker-end=\"url(#arrow)\"/>"))
    | _, _, _, _ => Except.error PyErr.keyError
  | _, _ => Except.ok none

/-- One node of `to_svg`: a `KeyError` when the node lacks `x` or `y`
(indexed directly), otherwise the `<rect .../>` and centered `<text>`
elements.  Fill and stroke use `.get` defaults `#fff` / `#333` (a present
but empty color string is used as-is). -/
def svgNodeElems (nid : String) (n : Node) (ox oy : Int) :
    Except PyErr (List String) :=
  match n.x, n.y with
  | some nx, some ny =>
    let x := nx + ox
    let y := ny + oy
    let w := n.width.getD 120
    let h := n.height.getD 60
    let label := html_escape (n.label.getD nid)
    let st := n.style.getD {}
    let fill := st.fillColor.getD "#fff"
    let stroke := st.strokeColor.getD "#333"
    Except.ok
      ["  <rect x=\"" ++ toString x ++ "\" y=\"" ++ toString y ++ "\" width=\"" ++
        toString w ++ "\" height=\"" ++ toString h ++ "\" fill=\"" ++ fill ++
        "\" stroke=\"" ++ stroke ++ "\" stroke-width=\"2\" rx=\"5\"/>",
       "  <text x=\"" ++ halfStr (2 * x + w) ++ "\" y=\"" ++ halfStr (2 * y + h + 10) ++
        "\" font-family=\"Arial\" font-size=\"14\" text-anchor=\"middle\">" ++ label ++
        "</text>"]
  | _, _ => Except.error PyErr.keyError

/-- The edge loop of `to_svg`, collecting the emitted line elements and
propagating the first `KeyError`. -/
def svgEdgesE (m : List (String × Node)) (ox oy : Int) :
    List Edge → Except PyErr (List String)
  | [] => Except.ok []
  | e :: rest =>
    match svgEdgeElem m ox oy e with
    | Except.error er => Except.error er
    | Except.ok r =>
      match svgEdgesE m ox oy rest with
      | Except.error er => Except.error er
      | Except.ok rs => Except.ok (match r with | some s => s :: rs | none => rs)

/-- The node loop of `to_svg`. -/
def svgNodesE (ox oy : Int) :
    List (String × Node) → Except PyErr (List String)
  | [] => Except.ok []
  | p :: rest =>
    match svgNodeElems p.1 p.2 ox oy with
    | Except.error er => Except.error er
    | Except.ok r =>
      match svgNodesE ox oy rest with
      | Except.error er => Except.error er
      | Except.ok rs => Except.ok (r ++ rs)

/-- `to_svg()`: the minimal empty canvas when there are no nodes;
otherwise the padded bounding-box canvas with edges drawn before nodes.
The result is `Except` because the drawing loops index `x`/`y` directly
and can raise `KeyError`. -/
def toSvgE (d : Diagram) : Except PyErr String :=
  let m := nodesDict d
  if m.isEmpty then
    Except.ok "<svg xmlns=\"http://www.w3.org/2000/svg\" width=\"100\" height=\"100\"></svg>"
  else
    let vals := dictValues m
    let minX := pyMinI (vals.map (fun n => n.x.getD 0))
    let minY := pyMinI (vals.map (fun n => n.y.getD 0))
    let maxX := pyMaxI (vals.map (fun n => n.x.getD 0 + n.width.getD 120))
    let maxY := pyMaxI (vals.map (fun n => n.y.getD 0 + n.height.getD 60))
    let pad : Int := 50
    let width := maxX - minX + pad * 2
    let height := maxY - minY + pad * 2
    let ox := -minX + pad
    let oy := -minY + pad
    match svgEdgesE m ox oy (sortedEdges d) with
    | Except.error er => Except.error er
    | Except.ok edgeEls =>
      match svgNodesE ox oy (sortedNodePairs d) with
      | Except.error er => Except.error er
      | Except.ok nodeEls =>
        Except.ok ("<svg xmlns=\"http://www.w3.org/2000/svg\" width=\"" ++ toString width ++
        "\" height=\"" ++ toString height ++
        "\">\n  <defs><marker id=\"arrow\" markerWidth=\"10\" markerHeight=\"7\" refX=\"9\" refY=\"3.5\" orient=\"auto\">\n    <polygon points=\"0 0, 10 3.5, 0 7\" fill=\"#333\"/></marker></defs>\n" ++
        pyJoin "\n" (edgeEls ++ nodeEls) ++ "\n</svg>")

/-- `DiagramConverter.convert(fmt)`: dispatch on the lowercased format
name; an unrecognized name raises `KeyError` before any rendering. -/
def convert (d : Diagram) (lay : Option String) (fmt : String) :
    Except PyErr String :=
  let f := pyLower fmt
  if f == "mermaid" then Except.ok (toMermaid lay d)
  else if f == "graphviz" then Except.ok (toGraphviz d)
  else if f == "drawio" then Except.ok (toDrawio d)
  else if f == "svg" then toSvgE d
  else Except.error PyErr.keyError

/-- Elements of pass 1 that become nodes: everything that is not
connector-typed, not free-text-typed and not deleted. -/
def shapeEls (elements : List Element) : List Element :=
  elements.filter (fun el => !pass1Skips el)

/-- Modelled from the spec's words (spec.md §4.2 Pass 1): the label
fallback chain after bound text — the element's own inline text field if
non-empty, else the positional placeholder `"Shape N"` with `N` one more
than the number of shapes processed so far. -/
def specLabelFallback (el : Element) (count : Nat) : String :=
  if el.text.getD "" ≠ "" then el.text.getD ""
  else "Shape " ++ toString (count + 1)

/-- Modelled from the spec's words (spec.md §4.2 Pass 1): bound-text
precedence — the text of the first text element whose container reference
equals this element's id, when that text is non-empty; otherwise the
fallback chain. -/
def specLabel (elements : List Element) (el : Element) (count : Nat) : String :=
  match elements.find? (fun t => t.type == some "text" && t.containerId == el.id) with
  | some t => if t.text.getD "" ≠ "" then t.text.getD "" else specLabelFallback el count
  | none => specLabelFallback el count

/-- Geometry-defaulting of `to_drawio` made explicit: the defaults the
renderer substitutes for absent position/size fields. -/
def fillGeometryDefaults (n : Node) : Node :=
  { n with x := some (n.x.getD 0), y := some (n.y.getD 0),
           width := some (n.width.getD 120), height := some (n.height.getD 60) }

/-- Two elements whose labels sanitize to the same identifier: the
failing input for the importer's id-uniqueness invariant. -/
def c1Els : List Element :=
  [{ id := some "e1", type := some "rectangle", text := some "A" },
   { id := some "e2", type := some "rectangle", text := some "A" }]

/-- Counterexample diagram for order independence: two distinct edges
that share the edge id `"e"`. -/
def c3NodeA : Node := { id := "a", x := some 0, y := some 0 }

/-- Second node of the order-independence counterexample. -/
def c3NodeB : Node := { id := "b", x := some 100, y := some 0 }

/-- First edge of the duplicate-id pair. -/
def c3EdgeAB : Edge := { id := "e", fromId := "a", toId := "b" }

/-- Second edge of the duplicate-id pair. -/
def c3EdgeBA : Edge := { id := "e", fromId := "b", toId := "a" }

/-- The duplicate-edge-id diagram in one input order. -/
def c3Diag1 : Diagram :=
  { nodes := [c3NodeA, c3NodeB], edges := [c3EdgeAB, c3EdgeBA] }

/-- The same sets of nodes and edges, with the edges listed in the other
order. -/
def c3Diag2 : Diagram :=
  { nodes := [c3NodeA, c3NodeB], edges := [c3EdgeBA, c3EdgeAB] }

/-- Counterexample diagram for the dashed-edge claim: a dashed edge whose
`type` is `"line"`, so the mermaid arrow token is the undirected `---`. -/
def c5CexEdge : Edge :=
  { id := "e1", fromId := "a", toId := "b", type := some "line",
    style := some { strokeStyle := some "dashed" } }

/-- Diagram holding `c5CexEdge`. -/
def c5CexDiag : Diagram :=
  { nodes := [{ id := "a", x := some 0, y := some 0 },
              { id := "b", x := some 100, y := some 0 }],
    edges := [c5CexEdge] }

/-- Witness edge for the amended dashed-edge claim: dashed, arrow-typed,
with both endpoints resolvable. -/
def c5WEdge : Edge :=
  { id := "e1", fromId := "a", toId := "b",
    style := some { strokeStyle := some "dashed" } }

/-- Witness diagram for the amended dashed-edge claim. -/
def c5WDiag : Diagram :=
  { nodes := [{ id := "a", x := some 0, y := some 0 },
              { id := "b", x := some 100, y := some 0 }],
    edges := [c5WEdge] }

/-- Witness diagram for the layout-direction claim: wider than tall, so
position layout must infer `LR`. -/
def c4WDiag : Diagram :=
  { nodes := [{ id := "a", x := some 0, y := some 0 },
              { id := "b", x := some 300, y := some 20 }] }

/-- Witness node for the grouping-asymmetry claim. -/
def c7WNode : Node := { id := "n1", label := some "Node 1" }

/-- Witness diagram for the grouping-asymmetry claim: one node that
belongs to one group. -/
def c7WDiag : Diagram :=
  { nodes := [c7WNode, { id := "n2", label := some "Node 2" }],
    groups := [{ id := some "grp", label := some "My Group", nodeIds := ["n1"] }] }

/-- Witness diagram for the dangling-edge claim: the edge's target id
`"ghost"` matches no node. -/
def c8WEdge : Edge := { id := "e1", fromId := "a", toId := "ghost" }

/-- Diagram holding `c8WEdge`. -/
def c8WDiag : Diagram :=
  { nodes := [{ id := "a", x := some 0, y := some 0 }],
    edges := [c8WEdge] }

/-- Witness diagram for the dispatch claim. -/
def c9WDiag : Diagram := { nodes := [{ id := "a", x := some 0, y := some 0 }] }

/-- Witness diagram for the svg-safety claim: the node `b` has a `y` but
no `x`, so `to_svg` raises while `to_drawio` succeeds. -/
def c10MissDiag : Diagram :=
  { nodes := [{ id := "a", x := some 1, y := some 2 }, { id := "b", y := some 5 }],
    edges := [{ id := "e", fromId := "a", toId := "b" }] }

/-- Witness diagram for the svg-safety claim with complete geometry. -/
def c10OkDiag : Diagram :=
  { nodes := [{ id := "a", x := some 1, y := some 2 },
              { id := "b", x := some 7, y := some 5 }],
    edges := [{ id := "e", fromId := "a", toId := "b" }] }

/-- The x coordinates the direction heuristic reads (dict values, missing
`x` as 0). -/
def xsOf (d : Diagram) : List Int :=
  (dictValues (nodesDict d)).map (fun n => n.x.getD 0)

/-- The y coordinates the direction heuristic reads. -/
def ysOf (d : Diagram) : List Int :=
  (dictValues (nodesDict d)).map (fun n => n.y.getD 0)

/-- Horizontal bounding-box span of the node coordinates. -/
def spanX (d : Diagram) : Int := pyMaxI (xsOf d) - pyMinI (xsOf d)

/-- Vertical bounding-box span of the node coordinates. -/
def spanY (d : Diagram) : Int := pyMaxI (ysOf d) - pyMinI (ysOf d)

/-- Witness diagram for order independence, first input order. -/
def c3WDiag1 : Diagram :=
  { title := "T",
    nodes := [{ id := "b", label := some "B", x := some 9, y := some 1 },
              { id := "a", label := some "A", x := some 0, y := some 0 }],
    edges := [{ id := "e2", fromId := "b", toId := "a" },
              { id := "e1", fromId := "a", toId := "b" }],
    groups := [{ id := some "g", label := some "G", nodeIds := ["a"] }] }

/-- The same diagram contents in another input order. -/
def c3WDiag2 : Diagram :=
  { title := "T",
    nodes := [{ id := "a", label := some "A", x := some 0, y := some 0 },
              { id := "b", label := some "B", x := some 9, y := some 1 }],
    edges := [{ id := "e1", fromId := "a", toId := "b" },
              { id := "e2", fromId := "b", toId := "a" }],
    groups := [{ id := some "g", label := some "G", nodeIds := ["a"] }] }

set_option maxRecDepth 16384

instance {ε α : Type} [DecidableEq ε] [DecidableEq α] : DecidableEq (Except ε α) :=
  fun a b => by
    rcases a with ea | oa <;> rcases b with eb | ob
    · exact if h : ea = eb then isTrue (by rw [h]) else isFalse (by simp [h])
    · exact isFalse (by simp)
    · exact isFalse (by simp)
    · exact if h : oa = ob then isTrue (by rw [h]) else isFalse (by simp [h])

theorem listLexLt_irrefl (l : List Char) : listLexLt l l = false := by
  induction l with
  | nil => rfl
  | cons a as ih => simp [listLexLt, lt_irrefl, ih]

theorem listLexLt_asymm :
    ∀ {a b : List Char}, listLexLt a b = true → listLexLt b a = false := by
  intro a
  induction a with
  | nil =>
    intro b h
    cases b with
    | nil => simp [listLexLt] at h
    | cons x xs => simp [listLexLt]
  | cons x xs ih =>
    intro b h
    cases b with
    | nil => simp [listLexLt] at h
    | cons y ys =>
      simp only [listLexLt] at h ⊢
      by_cases hxy : x < y
      · have : ¬ y < x := lt_asymm hxy
        simp [this, hxy]
      · by_cases hyx : y < x
        · simp [hxy, hyx] at h
        · simp only [hxy, hyx, if_false] at h
          simp [hxy, hyx, ih h]

theorem listLexLt_connex :
    ∀ {a b : List Char}, listLexLt a b = false → listLexLt b a = false → a = b := by
  intro a
  induction a with
  | nil =>
    intro b h _
    cases b with
    | nil => rfl
    | cons x xs => simp [listLexLt] at h
  | cons x xs ih =>
    intro b h h'
    cases b with
    | nil => simp [listLexLt] at h'
    | cons y ys =>
      simp only [listLexLt] at h h'
      by_cases hxy : x < y
      · simp [hxy] at h
      · by_cases hyx : y < x
        · simp [hyx, hxy] at h'
        · have hx : x = y := le_antisymm (not_lt.mp hyx) (not_lt.mp hxy)
          simp only [hxy, hyx, if_false] at h h'
          rw [hx, ih h h']

theorem listLexLt_trans :
    ∀ {a b c : List Char}, listLexLt a b = true → listLexLt b c = true →
      listLexLt a c = true := by
  intro a
  induction a with
  | nil =>
    intro b c h h'
    cases b with
    | nil => simp [listLexLt] at h
    | cons y ys =>
      cases c with
      | nil => simp [listLexLt] at h'
      | cons z zs => simp [listLexLt]
  | cons x xs ih =>
    intro b c h h'
    cases b with
    | nil => simp [listLexLt] at h
    | cons y ys =>
      cases c with
      | nil => simp [listLexLt] at h'
      | cons z zs =>
        simp only [listLexLt] at h h' ⊢
        by_cases hxy : x < y
        · have hyz : y ≤ z := by
            by_contra hc
            have hzy : z < y := lt_of_not_le hc
            have : ¬ y < z := lt_asymm hzy
            simp [this, hzy] at h'
          have hxz : x < z := lt_of_lt_of_le hxy hyz
          simp [hxz]
        · by_cases hyx : y < x
          · simp [hxy, hyx] at h
          · have hx : x = y := le_antisymm (not_lt.mp hyx) (not_lt.mp hxy)
            simp only [hxy, hyx, if_false] at h
            by_cases hyz : y < z
            · have hxz : x < z := hx ▸ hyz
              simp [hxz]
            · by_cases hzy : z < y
              · simp [hyz, hzy] at h'
              · have hy : y = z := le_antisymm (not_lt.mp hzy) (not_lt.mp hyz)
                simp only [hyz, hzy, if_false] at h'
                have hxz : ¬ x < z := by rw [hx, hy]; exact lt_irrefl z
                have hzx : ¬ z < x := by rw [hx, hy]; exact lt_irrefl z
                simp [hxz, hzx, ih h h']

theorem pyStrLe_total (a b : String) : pyStrLe a b = true ∨ pyStrLe b a = true := by
  unfold pyStrLe
  by_cases h : listLexLt b.data a.data = true
  · right
    simp [listLexLt_asymm h]
  · left
    simp [Bool.not_eq_true] at h
    simp [h]

theorem pyStrLe_trans {a b c : String} (h : pyStrLe a b = true)
    (h' : pyStrLe b c = true) : pyStrLe a c = true := by
  unfold pyStrLe at h h' ⊢
  simp only [Bool.not_eq_true', Bool.not_eq_eq_eq_not, Bool.not_true] at h h' ⊢
  by_contra hc
  simp only [Bool.not_eq_false] at hc
  by_cases hba : listLexLt b.data c.data = true
  · exact absurd (listLexLt_trans hba (by simpa using hc)) (by simp [h])
  · have heq : b.data = c.data :=
      listLexLt_connex (by simpa using hba) h'
    rw [← heq] at hc
    simp [hc] at h

theorem pyStrLe_antisymm {a b : String} (h : pyStrLe a b = true)
    (h' : pyStrLe b a = true) : a = b := by
  unfold pyStrLe at h h'
  simp only [Bool.not_eq_true', Bool.not_eq_eq_eq_not, Bool.not_true] at h h'
  exact String.ext (listLexLt_connex h' h)

theorem pyStrLe_of_ne {a b : String} (h : pyStrLe a b = true) (hne : a ≠ b) :
    listLexLt a.data b.data = true := by
  unfold pyStrLe at h
  simp only [Bool.not_eq_true', Bool.not_eq_eq_eq_not, Bool.not_true] at h
  by_cases hab : listLexLt a.data b.data = true
  · exact hab
  · exact absurd (String.ext (listLexLt_connex (by simpa using hab) h)) hne

theorem pairwise_lt_of_sorted_key {α : Type} (key : α → String) (s : List α)
    (hs : List.Pairwise (fun a b => pyStrLe (key a) (key b) = true) s)
    (hnd : (s.map key).Nodup) :
    List.Pairwise (fun a b => listLexLt (key a).data (key b).data = true) s := by
  have hne : List.Pairwise (fun a b : α => key a ≠ key b) s := List.pairwise_map.mp hnd
  exact (hs.and hne).imp (fun hab => pyStrLe_of_ne hab.1 hab.2)

theorem insertionSort_key_eq {α : Type} (key : α → String) {l1 l2 : List α}
    (h : l1.Perm l2) (hnd : (l1.map key).Nodup) :
    List.insertionSort (fun a b => pyStrLe (key a) (key b) = true) l1 =
    List.insertionSort (fun a b => pyStrLe (key a) (key b) = true) l2 := by
  haveI : IsTotal α (fun a b => pyStrLe (key a) (key b) = true) :=
    ⟨fun a b => pyStrLe_total (key a) (key b)⟩
  haveI : IsTrans α (fun a b => pyStrLe (key a) (key b) = true) :=
    ⟨fun _ _ _ hab hbc => pyStrLe_trans hab hbc⟩
  haveI : IsAntisymm α (fun a b => listLexLt (key a).data (key b).data = true) :=
    ⟨fun a b hab hba => absurd hba (by simp [listLexLt_asymm hab])⟩
  have hnd2 : (l2.map key).Nodup := ((h.map key).nodup_iff).mp hnd
  have hperm :
      (List.insertionSort (fun a b => pyStrLe (key a) (key b) = true) l1).Perm
        (List.insertionSort (fun a b => pyStrLe (key a) (key b) = true) l2) :=
    ((List.perm_insertionSort _ l1).trans h).trans (List.perm_insertionSort _ l2).symm
  refine List.eq_of_perm_of_sorted
    (r := fun a b => listLexLt (key a).data (key b).data = true) hperm ?_ ?_
  · exact pairwise_lt_of_sorted_key key _ (List.sorted_insertionSort _ l1)
      (((List.perm_insertionSort _ l1).map key).nodup_iff.mpr hnd)
  · exact pairwise_lt_of_sorted_key key _ (List.sorted_insertionSort _ l2)
      (((List.perm_insertionSort _ l2).map key).nodup_iff.mpr hnd2)

theorem find?_eq_some_of_unique {α : Type} {p : α → Bool} {l : List α} {a : α}
    (ha : a ∈ l) (hpa : p a = true) (huniq : ∀ b ∈ l, p b = true → b = a) :
    l.find? p = some a := by
  induction l with
  | nil => cases ha
  | cons x xs ih =>
    by_cases hpx : p x = true
    · have hx : x = a := huniq x (List.mem_cons_self x xs) hpx
      subst hx
      simp [List.find?_cons, hpx]
    · have hax : a ≠ x := fun he => hpx (he ▸ hpa)
      have ha' : a ∈ xs := by
        rcases List.mem_cons.mp ha with h | h
        · exact absurd h hax
        · exact h
      rw [List.find?_cons]
      simp only [hpx]
      exact ih ha' (fun b hb hpb => huniq b (List.mem_cons_of_mem x hb) hpb)

theorem find?_key_perm {α : Type} (key : α → String) {l1 l2 : List α}
    (h : l1.Perm l2) (hnd : (l1.map key).Nodup) (k : String) :
    l1.find? (fun a => key a == k) = l2.find? (fun a => key a == k) := by
  by_cases hex : ∃ a ∈ l1, key a = k
  · obtain ⟨a, ha, hk⟩ := hex
    have huniq1 : ∀ b ∈ l1, (key b == k) = true → b = a := by
      intro b hb hbk
      exact List.inj_on_of_nodup_map hnd hb ha (by simpa [hk] using hbk)
    rw [find?_eq_some_of_unique ha (by simp [hk]) huniq1,
      find?_eq_some_of_unique (h.subset ha) (by simp [hk])
        (fun b hb hbk => huniq1 b (h.symm.subset hb) hbk)]
  · rw [List.find?_eq_none.mpr, List.find?_eq_none.mpr]
    · intro x hx hpx
      exact hex ⟨x, h.symm.subset hx, by simpa using hpx⟩
    · intro x hx hpx
      exact hex ⟨x, hx, by simpa using hpx⟩

theorem any_eq_of_perm {α : Type} {l1 l2 : List α} (h : l1.Perm l2) (p : α → Bool) :
    l1.any p = l2.any p := by
  cases hb : l2.any p
  · rw [List.any_eq_false] at hb ⊢
    exact fun x hx => hb x (h.subset hx)
  · rw [List.any_eq_true] at hb ⊢
    obtain ⟨x, hx, hpx⟩ := hb
    exact ⟨x, h.symm.subset hx, hpx⟩

theorem pyMaxI_perm {l1 l2 : List Int} (h : l1.Perm l2) : pyMaxI l1 = pyMaxI l2 := by
  unfold pyMaxI
  haveI : RightCommutative
      (fun (acc : Option Int) (x : Int) =>
        some (match acc with | none => x | some m => max m x)) :=
    ⟨fun b a1 a2 => by
      cases b with
      | none => simp [max_comm]
      | some m =>
        simp only [Option.some.injEq]
        rw [max_assoc, max_comm a1 a2, ← max_assoc]⟩
  rw [h.foldl_eq]

theorem pyMinI_perm {l1 l2 : List Int} (h : l1.Perm l2) : pyMinI l1 = pyMinI l2 := by
  unfold pyMinI
  haveI : RightCommutative
      (fun (acc : Option Int) (x : Int) =>
        some (match acc with | none => x | some m => min m x)) :=
    ⟨fun b a1 a2 => by
      cases b with
      | none => simp [min_comm]
      | some m =>
        simp only [Option.some.injEq]
        rw [min_assoc, min_comm a1 a2, ← min_assoc]⟩
  rw [h.foldl_eq]

theorem str_append_data (a b : String) : (a ++ b).data = a.data ++ b.data :=
  String.data_append a b

theorem str_tok_left {t : List Char} {s : String} (pre : String)
    (h : t <:+: s.data) : t <:+: (pre ++ s).data := by
  obtain ⟨u, v, huv⟩ := h
  exact ⟨pre.data ++ u, v, by rw [str_append_data, ← huv]; simp⟩

theorem str_tok_right {t : List Char} {s : String} (suf : String)
    (h : t <:+: s.data) : t <:+: (s ++ suf).data := by
  obtain ⟨u, v, huv⟩ := h
  exact ⟨u, v ++ suf.data, by rw [str_append_data, ← huv]; simp⟩

theorem str_tok_self (s : String) : s.data <:+: s.data := ⟨[], [], by simp⟩

theorem infix_pyJoin {s : String} {l : List String} (sep : String) (h : s ∈ l) :
    s.data <:+: (pyJoin sep l).data := by
  induction l with
  | nil => cases h
  | cons a rest ih =>
    cases rest with
    | nil =>
      have hs : s = a := by simpa using h
      have hp : pyJoin sep [a] = a := rfl
      rw [hs, hp]
    | cons b bs =>
      have hp : pyJoin sep (a :: b :: bs) = a ++ sep ++ pyJoin sep (b :: bs) := rfl
      rcases List.mem_cons.mp h with he | hm
      · rw [he, hp]
        exact str_tok_right _ (str_tok_right _ (str_tok_self a))
      · rw [hp]
        exact str_tok_left (a ++ sep) (ih hm)

theorem toNat_ofNat_valid (n : Nat) (h : n < 55296) : (Char.ofNat n).toNat = n := by
  rw [Char.ofNat, dif_pos (Or.inl h)]
  simp [Char.ofNatAux, Char.toNat, UInt32.toNat, UInt32.ofNatCore]

theorem uint32_le_iff (a b : UInt32) : a ≤ b ↔ a.toNat ≤ b.toNat := by
  rw [UInt32.le_def, BitVec.le_def]
  rfl

theorem isUpper_toLower (c : Char) : Char.isUpper (Char.toLower c) = false := by
  have hcv : c.toNat = c.val.toNat := rfl
  simp only [Char.toLower, Char.isUpper]
  split
  · next h =>
    have ht : (Char.ofNat (c.toNat + 32)).val.toNat = c.toNat + 32 :=
      toNat_ofNat_valid _ (by simp only [Char.toNat] at h; omega)
    simp only [Bool.and_eq_false_iff, decide_eq_false_iff_not, ge_iff_le]
    right
    have h90 : ((90 : UInt32)).toNat = 90 := rfl
    rw [uint32_le_iff, h90, ht]
    simp only [Char.toNat] at h
    omega
  · next h =>
    simp only [Char.toNat] at h
    simp only [Bool.and_eq_false_iff, decide_eq_false_iff_not, ge_iff_le]
    rcases Nat.lt_or_ge (c.val.toNat) 65 with h1 | h1
    · left
      rw [uint32_le_iff]
      have h65 : ((65 : UInt32)).toNat = 65 := rfl
      omega
    · right
      rw [uint32_le_iff]
      have h90 : ((90 : UInt32)).toNat = 90 := rfl
      omega

theorem isAlphanum_toLower (c : Char) :
    (Char.toLower c).isAlphanum = ((Char.toLower c).isLower || (Char.toLower c).isDigit) := by
  simp [Char.isAlphanum, Char.isAlpha, isUpper_toLower c]

theorem subRunsAux_congr {p q : Char → Bool} :
    ∀ (l : List Char), (∀ c ∈ l, p c = q c) → ∀ (r : Bool),
      subRunsAux p r l = subRunsAux q r l := by
  intro l
  induction l with
  | nil => intro _ _; rfl
  | cons c cs ih =>
    intro hpq r
    have hc : p c = q c := hpq c (List.mem_cons_self c cs)
    have htail : ∀ x ∈ cs, p x = q x := fun x hx => hpq x (List.mem_cons_of_mem c hx)
    simp only [subRunsAux, hc]
    by_cases hqc : q c = true
    · simp only [hqc, if_true]
      by_cases hr : r = true
      · simp [hr, ih htail]
      · simp only [Bool.not_eq_true] at hr
        simp [hr, ih htail]
    · simp only [Bool.not_eq_true] at hqc
      simp [hqc, ih htail]

/-- C1: the claim states the importer never emits duplicate node ids.
The code violates it: in `sanitize_id`, `if existing:` is false for an
*empty* set, so the collision branch (and the `existing.add`) is skipped
whenever the set is empty — and since nothing is ever added, the set
stays empty for the whole file and no collision is ever suffixed.  On a
file with two rectangles both labeled `"A"`, both nodes get id `"a"`. -/
theorem c1_importer_emits_duplicate_ids :
    ((parse_excalidraw "dup.excalidraw" c1Els).nodes.map (fun n => n.id)) = ["a", "a"] ∧
    ¬ ((parse_excalidraw "dup.excalidraw" c1Els).nodes.map (fun n => n.id)).Nodup := by
  decide

/-- C2 counterexample: on the input `"!!!"` the code's sanitizer yields
`"node_"` (the digit/empty branch prefixes `"node_"` to the empty
stripped result), while the spec's reference definition substitutes the
literal `"node"` — so sanitize_id does not equal the spec's reference
definition on every input. -/
theorem c2_counterexample :
    (sanitize_id "!!!" none).1 = "node_" ∧ specSanitize "!!!" = "node" := by
  decide

/-- C2 (amended): without a collision set, `sanitize_id` equals the
reference definition amended in one place — a pipeline result that comes
out empty is given the `"node_"` prefix (yielding `"node_"`) instead of
being replaced by `"node"`; the empty input is substituted *before* the
pipeline and still yields `"node"`.  All four examples of the original
claim hold. -/
theorem c2_sanitize_id_matches_amended_spec :
    (∀ s : String, (sanitize_id s none).1 = specSanitizeAmended s) ∧
    (sanitize_id "" none).1 = "node" ∧
    (sanitize_id "123abc" none).1 = "node_123abc" ∧
    (sanitize_id "foo@bar#baz!" none).1 = "foo_bar_baz" ∧
    (sanitize_id "foo___bar" none).1 = "foo_bar" := by
  refine ⟨?_, by decide, by decide, by decide, by decide⟩
  intro s
  show sanitizeCore s = specSanitizeAmended s
  by_cases hs : s.isEmpty = true
  · have he : s = "" := (String.isEmpty_iff s).mp hs
    subst he
    decide
  · have hsf : s.isEmpty = false := by simpa using hs
    have key : subRuns (fun c => !c.isAlphanum) ((pyLower s).toList)
        = subRuns (fun c => !(c.isLower || c.isDigit)) ((pyLower s).toList) := by
      unfold subRuns
      apply subRunsAux_congr
      intro c hc
      have hmem : c ∈ s.data.map Char.toLower := by
        simpa [pyLower, String.toList] using hc
      obtain ⟨c0, _, rfl⟩ := List.mem_map.mp hmem
      simp [isAlphanum_toLower c0]
    simp only [sanitizeCore, specSanitizeAmended, hsf, if_false, Bool.false_eq_true]
    rw [key]

theorem pass1Label_eq_specLabel (allEls : List Element) (el : Element) (count : Nat) :
    pass1Label allEls el count = specLabel allEls el count := by
  unfold pass1Label specLabel find_bound_text specLabelFallback pyOrS
  cases hf : allEls.find? (fun t => t.type == some "text" && t.containerId == el.id) with
  | none =>
    simp only [String.isEmpty_iff]
    by_cases ht : (el.text.getD "") = ""
    · simp [ht]
    · simp [ht]
  | some t =>
    by_cases hb : (t.text.getD "") = ""
    · simp only [String.isEmpty_iff, hb]
      by_cases ht : (el.text.getD "") = ""
      · simp [ht]
      · simp [ht]
    · simp [String.isEmpty_iff, hb]

theorem pass1_nodes_labels (allEls : List Element) :
    ∀ (rest : List Element) (ex : List String) (im : List (Option String × String))
      (acc : List ENode),
      ((pass1 allEls rest ex im acc).2.2).map (fun n => n.label) =
        acc.map (fun n => n.label) ++
          (shapeEls rest).mapIdx
            (fun i el => pyStripWS (specLabel allEls el (acc.length + i))) := by
  intro rest
  induction rest with
  | nil =>
    intro ex im acc
    simp [pass1, shapeEls]
  | cons el rest ih =>
    intro ex im acc
    by_cases hskip : pass1Skips el = true
    · rw [show pass1 allEls (el :: rest) ex im acc = pass1 allEls rest ex im acc by
        simp [pass1, hskip]]
      rw [ih]
      simp [shapeEls, hskip]
    · have hsf : pass1Skips el = false := by simpa using hskip
      rw [show pass1 allEls (el :: rest) ex im acc =
          pass1 allEls rest
            ((sanitize_id (pass1Label allEls el acc.length) (some ex)).2.getD ex)
            (idMapInsert im el.id
              ((sanitize_id (pass1Label allEls el acc.length) (some ex)).1))
            (acc ++ [{ id := (sanitize_id (pass1Label allEls el acc.length) (some ex)).1
                       type := excalidraw_shape (el.type.getD "")
                       label := pyStripWS (pass1Label allEls el acc.length)
                       x := pyRound (el.x.getD 0)
                       y := pyRound (el.y.getD 0)
                       width := pyRound (el.width.getD 100)
                       height := pyRound (el.height.getD 50)
                       style := pass1Style el }]) by
        simp [pass1, hsf]]
      rw [ih]
      have hshape : shapeEls (el :: rest) = el :: shapeEls rest := by
        simp [shapeEls, hsf]
      rw [hshape, List.mapIdx_cons]
      simp only [List.map_append, List.map_cons, List.map_nil, List.length_append,
        List.length_cons, List.length_nil]
      rw [List.append_assoc]
      congr 1
      simp only [List.singleton_append]
      congr 1
      · rw [pass1Label_eq_specLabel]
        congr 1
      · have hfun : (fun i el2 => pyStripWS (specLabel allEls el2 (acc.length + 1 + i))) =
            (fun i el2 => pyStripWS (specLabel allEls el2 (acc.length + (i + 1)))) := by
          funext i el2
          have harith : acc.length + 1 + i = acc.length + (i + 1) := by omega
          rw [harith]
        rw [hfun]

/-- C6: pass 1 resolves every shape's label with bound-text precedence —
the text of the first text element bound to the shape when non-empty,
else the shape's own inline text when non-empty, else the positional
placeholder `"Shape N"` with `N` one past the number of shapes processed
so far (`specLabel` transcribes the spec's precedence rule); the stored
label is the resolved label stripped of surrounding whitespace. -/
theorem c6_bound_text_precedence (path : String) (elements : List Element) :
    (parse_excalidraw path elements).nodes.map (fun n => n.label) =
      (shapeEls elements).mapIdx (fun i el => pyStripWS (specLabel elements el i)) := by
  show ((pass1 elements elements [] [] []).2.2).map (fun n => n.label) = _
  rw [pass1_nodes_labels]
  simp

theorem dictInsert_ne_nil (m : List (String × Node)) (k : String) (v : Node) :
    dictInsert m k v ≠ [] := by
  unfold dictInsert
  split
  · next h =>
    intro hc
    have hm : m = [] := by
      cases m with
      | nil => rfl
      | cons a as => simp at hc
    subst hm
    simp at h
  · intro hc
    simp at hc

theorem foldl_dictInsert_ne_nil (l : List Node) :
    ∀ (acc : List (String × Node)), acc ≠ [] →
      l.foldl (fun m n => dictInsert m n.id n) acc ≠ [] := by
  induction l with
  | nil =>
    intro acc h
    simpa using h
  | cons n rest ih =>
    intro acc _
    exact ih _ (dictInsert_ne_nil acc n.id n)

theorem nodesDict_ne_nil {d : Diagram} (h : d.nodes ≠ []) : nodesDict d ≠ [] := by
  unfold nodesDict
  cases hn : d.nodes with
  | nil => exact absurd hn h
  | cons n rest =>
    rw [List.foldl_cons]
    exact foldl_dictInsert_ne_nil rest _ (dictInsert_ne_nil [] n.id n)

/-- C4: under active position layout with at least one node, the mermaid
flow direction is `LR` exactly when the horizontal coordinate span
strictly exceeds the vertical span and `TD` otherwise (ties give `TD`);
under structure layout it is always `TD`; the direction is what the
emitted `flowchart` line carries. -/
theorem c4_direction_inference (lay : Option String) (d : Diagram) :
    (getLayout lay "mermaid" = "position" → d.nodes ≠ [] →
      ((mermaidDirection lay d = "LR" ↔ spanX d > spanY d) ∧
       (mermaidDirection lay d = "TD" ↔ ¬ spanX d > spanY d))) ∧
    (getLayout lay "mermaid" = "structure" → mermaidDirection lay d = "TD") ∧
    ("flowchart " ++ mermaidDirection lay d) ∈ toMermaidLines lay d := by
  refine ⟨?_, ?_, ?_⟩
  · intro hpos hne
    have hb : (getLayout lay "mermaid" == "position") = true := by simp [hpos]
    have hemp : (nodesDict d).isEmpty = false := by
      have := nodesDict_ne_nil hne
      cases hcase : nodesDict d with
      | nil => exact absurd hcase this
      | cons a as => rfl
    unfold mermaidDirection
    rw [hb, hemp]
    simp only [Bool.not_false, Bool.and_self, if_true]
    by_cases hgt : spanX d > spanY d
    · have hgt' : pyMaxI ((dictValues (nodesDict d)).map (fun n => n.x.getD 0)) -
          pyMinI ((dictValues (nodesDict d)).map (fun n => n.x.getD 0)) >
          pyMaxI ((dictValues (nodesDict d)).map (fun n => n.y.getD 0)) -
          pyMinI ((dictValues (nodesDict d)).map (fun n => n.y.getD 0)) := by
        simpa [spanX, spanY, xsOf, ysOf] using hgt
      simp [hgt', hgt]
    · have hgt' : ¬ (pyMaxI ((dictValues (nodesDict d)).map (fun n => n.x.getD 0)) -
          pyMinI ((dictValues (nodesDict d)).map (fun n => n.x.getD 0)) >
          pyMaxI ((dictValues (nodesDict d)).map (fun n => n.y.getD 0)) -
          pyMinI ((dictValues (nodesDict d)).map (fun n => n.y.getD 0))) := by
        simpa [spanX, spanY, xsOf, ysOf] using hgt
      simp [hgt', hgt]
  · intro hstruct
    unfold mermaidDirection
    have hb : (getLayout lay "mermaid" == "position") = false := by
      simp [hstruct]
    rw [hb]
    simp
  · unfold toMermaidLines
    refine List.mem_append_left _ ?_
    refine List.mem_append_left _ ?_
    refine List.mem_append_left _ ?_
    refine List.mem_append_left _ ?_
    refine List.mem_append_left _ ?_
    exact List.mem_append_right _ (List.mem_singleton.mpr rfl)

/-- C4 witness: a two-node diagram wider than tall, rendered under the
position layout override, gets the `LR` direction on its `flowchart`
line. -/
theorem c4_witness :
    mermaidDirection (some "position") c4WDiag = "LR" ∧
    ("flowchart " ++ mermaidDirection (some "position") c4WDiag) ∈
      toMermaidLines (some "position") c4WDiag := by
  have h := c4_direction_inference (some "position") c4WDiag
  exact ⟨((h.1 (by decide) (by decide)).1).mpr (by decide), h.2.2⟩

/-- C9: `convert` dispatches on the lowercased format name — each of the
four supported names (in any case variant) returns exactly what the
corresponding render method returns, and any other name raises `KeyError`
instead of returning output. -/
theorem c9_dispatch (d : Diagram) (lay : Option String) (fmt : String) :
    (pyLower fmt = "mermaid" → convert d lay fmt = Except.ok (toMermaid lay d)) ∧
    (pyLower fmt = "graphviz" → convert d lay fmt = Except.ok (toGraphviz d)) ∧
    (pyLower fmt = "drawio" → convert d lay fmt = Except.ok (toDrawio d)) ∧
    (pyLower fmt = "svg" → convert d lay fmt = toSvgE d) ∧
    (pyLower fmt ∉ (["mermaid", "graphviz", "drawio", "svg"] : List String) →
      convert d lay fmt = Except.error PyErr.keyError) := by
  refine ⟨?_, ?_, ?_, ?_, ?_⟩ <;> intro h
  · simp [convert, h]
  · simp [convert, h]
  · simp [convert, h]
  · simp [convert, h]
  · have h1 : pyLower fmt ≠ "mermaid" := fun he => h (by simp [he])
    have h2 : pyLower fmt ≠ "graphviz" := fun he => h (by simp [he])
    have h3 : pyLower fmt ≠ "drawio" := fun he => h (by simp [he])
    have h4 : pyLower fmt ≠ "svg" := fun he => h (by simp [he])
    simp [convert, h1, h2, h3, h4]

/-- C9 witness: the upper-case variant `"MERMAID"` dispatches to the
mermaid renderer and the unknown name `"bogus"` raises. -/
theorem c9_witness :
    convert c9WDiag none "MERMAID" = Except.ok (toMermaid none c9WDiag) ∧
    convert c9WDiag none "bogus" = Except.error PyErr.keyError := by
  have h := c9_dispatch c9WDiag none "MERMAID"
  have h' := c9_dispatch c9WDiag none "bogus"
  exact ⟨h.1 (by decide), h'.2.2.2.2 (by decide)⟩

theorem tok_trans {a b c : List Char} (h1 : a <:+: b) (h2 : b <:+: c) : a <:+: c :=
  h1.trans h2

theorem mem_sortedEdges {d : Diagram} {e : Edge} (he : e ∈ d.edges) :
    e ∈ sortedEdges d :=
  (List.perm_insertionSort _ d.edges).mem_iff.mpr he

theorem mem_sortedGroups {d : Diagram} {g : DGroup} (hg : g ∈ d.groups) :
    g ∈ sortedGroups d :=
  (List.perm_insertionSort _ d.groups).mem_iff.mpr hg

theorem mem_sortStrings {l : List String} {s : String} (h : s ∈ l) :
    s ∈ sortStrings l :=
  (List.perm_insertionSort _ l).mem_iff.mpr h

theorem dictMem_some {m : List (String × Node)} {k : String}
    (h : dictMem m k = true) : ∃ n, dictGet m k = some n := by
  unfold dictMem at h
  unfold dictGet
  obtain ⟨p, hp, hpk⟩ := List.any_eq_true.mp h
  cases hf : m.find? (fun q => q.1 == k) with
  | none =>
    rw [List.find?_eq_none] at hf
    exact absurd hpk (hf p hp)
  | some q => exact ⟨q.2, rfl⟩

theorem mermaid_edge_line_token {e : Edge} (hd : edgeDashed e = true)
    (ht : (e.type == some "line") = false) :
    "-.->".data <:+: (mermaidEdgeLine e).data := by
  unfold mermaidEdgeLine
  rw [hd, ht]
  simp only [if_true, Bool.false_eq_true, if_false]
  by_cases hl : (e.label.getD "").isEmpty
  · simp only [hl, Bool.not_true, Bool.false_eq_true, if_false]
    exact str_tok_right _ (str_tok_right _
      (str_tok_left ("    " ++ e.fromId ++ " ") (str_tok_self "-.->")))
  · have hl' : (e.label.getD "").isEmpty = false := by simpa using hl
    simp only [hl', Bool.not_false, if_true]
    exact str_tok_right _ (str_tok_right _ (str_tok_right _ (str_tok_right _
      (str_tok_left ("    " ++ e.fromId ++ " ") (str_tok_self "-.->")))))

theorem mermaid_edge_line_mem {d : Diagram} {e : Edge} (lay : Option String)
    (he : e ∈ d.edges) : mermaidEdgeLine e ∈ toMermaidLines lay d := by
  unfold toMermaidLines
  refine List.mem_append_left _ ?_
  refine List.mem_append_right _ ?_
  exact List.mem_map_of_mem mermaidEdgeLine (mem_sortedEdges he)

theorem gv_edge_line_token {e : Edge} (hd : edgeDashed e = true) :
    "style=dashed".data <:+: (gvEdgeLine e).data := by
  unfold gvEdgeLine
  rw [hd]
  simp only [if_true]
  set attrs := (if pyTruthyS e.label then ["label=\"" ++ e.label.getD "" ++ "\""] else []) ++
    ["style=dashed"] with hattrs
  have hmem : "style=dashed" ∈ attrs := List.mem_append_right _ (List.mem_singleton.mpr rfl)
  have hne : attrs.isEmpty = false := by
    cases hc : attrs with
    | nil => rw [hc] at hmem; cases hmem
    | cons a as => rfl
  simp only [hne, Bool.not_false, if_true]
  refine str_tok_right ";" (str_tok_left ("    " ++ e.fromId ++ " -> " ++ e.toId) ?_)
  exact str_tok_right "]" (str_tok_left " [" (infix_pyJoin ", " hmem))

theorem gv_edge_line_mem {d : Diagram} {e : Edge} (he : e ∈ d.edges) :
    gvEdgeLine e ∈ toGraphvizLines d := by
  unfold toGraphvizLines
  refine List.mem_append_left _ ?_
  refine List.mem_append_left _ ?_
  refine List.mem_append_right _ ?_
  exact List.mem_map_of_mem gvEdgeLine (mem_sortedEdges he)

theorem drawio_edge_cell_token {e : Edge} (hd : edgeDashed e = true) :
    "dashed=1".data <:+: (drawioEdgeCell e).data := by
  unfold drawioEdgeCell
  rw [hd]
  simp only [if_true]
  have hbase : "dashed=1".data <:+:
      ("edgeStyle=orthogonalEdgeStyle;rounded=0;html=1;" ++ "dashed=1;").data :=
    str_tok_left _ (by decide)
  exact str_tok_right _ (str_tok_right _ (str_tok_right _ (str_tok_right _
    (str_tok_right _ (str_tok_left _ hbase)))))

theorem drawio_edge_cell_infix {d : Diagram} {e : Edge} (he : e ∈ d.edges)
    {t : List Char} (h : t <:+: (drawioEdgeCell e).data) : t <:+: (toDrawio d).data := by
  unfold toDrawio
  refine str_tok_right _ (str_tok_left _ ?_)
  refine tok_trans h (infix_pyJoin "\n" ?_)
  refine List.mem_append_right _ ?_
  exact List.mem_map_of_mem drawioEdgeCell (mem_sortedEdges he)

theorem svgEdgesE_ok_elem {m : List (String × Node)} {ox oy : Int} :
    ∀ {es : List Edge} {outs : List String},
      svgEdgesE m ox oy es = Except.ok outs →
      ∀ {e : Edge}, e ∈ es → ∃ r, svgEdgeElem m ox oy e = Except.ok r := by
  intro es
  induction es with
  | nil =>
    intro outs _ e he
    cases he
  | cons e' rest ih =>
    intro outs hok e he
    unfold svgEdgesE at hok
    split at hok
    · simp at hok
    · next r h1 =>
      split at hok
      · simp at hok
      · next rs h2 =>
        rcases List.mem_cons.mp he with rfl | hmem
        · exact ⟨r, h1⟩
        · exact ih h2 hmem

theorem svgEdgesE_ok_mem {m : List (String × Node)} {ox oy : Int} :
    ∀ {es : List Edge} {outs : List String},
      svgEdgesE m ox oy es = Except.ok outs →
      ∀ {e : Edge} {s : String}, e ∈ es →
        svgEdgeElem m ox oy e = Except.ok (some s) → s ∈ outs := by
  intro es
  induction es with
  | nil =>
    intro outs _ e s he
    cases he
  | cons e' rest ih =>
    intro outs hok e s he helem
    unfold svgEdgesE at hok
    split at hok
    · simp at hok
    · next r h1 =>
      split at hok
      · simp at hok
      · next rs h2 =>
        rcases List.mem_cons.mp he with rfl | hmem
        · rw [h1] at helem
          injection helem with hr
          subst hr
          cases hok
          exact List.mem_cons_self s rs
        · have hs : s ∈ rs := ih h2 hmem helem
          cases r with
          | none =>
            cases hok
            exact hs
          | some s' =>
            cases hok
            exact List.mem_cons_of_mem s' hs

theorem svgEdgeElem_dash {m : List (String × Node)} {ox oy : Int} {e : Edge}
    {fn tn : Node} (hfn : dictGet m e.fromId = some fn)
    (htn : dictGet m e.toId = some tn) (hd : edgeDashed e = true)
    (hnoerr : ∀ er, svgEdgeElem m ox oy e ≠ Except.error er) :
    ∃ s, svgEdgeElem m ox oy e = Except.ok (some s) ∧
      "stroke-dasharray".data <:+: s.data := by
  cases hx1 : fn.x with
  | none =>
    exact absurd (by simp [svgEdgeElem, hfn, htn, hx1]) (hnoerr PyErr.keyError)
  | some fx =>
  cases hy1 : fn.y with
  | none =>
    exact absurd (by simp [svgEdgeElem, hfn, htn, hx1, hy1]) (hnoerr PyErr.keyError)
  | some fy =>
  cases hx2 : tn.x with
  | none =>
    exact absurd (by simp [svgEdgeElem, hfn, htn, hx1, hy1, hx2]) (hnoerr PyErr.keyError)
  | some tx =>
  cases hy2 : tn.y with
  | none =>
    exact absurd (by simp [svgEdgeElem, hfn, htn, hx1, hy1, hx2, hy2]) (hnoerr PyErr.keyError)
  | some ty =>
    refine ⟨_, by
      simp only [svgEdgeElem, hfn, htn, hx1, hy1, hx2, hy2, hd, if_true]
      rfl, ?_⟩
    refine str_tok_right _ (str_tok_left _ ?_)
    decide

/-- C5 (amended): every edge with `style.strokeStyle = "dashed"` whose
`type` is not `"line"` contributes the `-.->` token to the mermaid
output; regardless of type it contributes a `style=dashed` attribute to
the graphviz output and a `dashed=1` style clause to the drawio output;
and when `to_svg` produces output and both endpoints resolve, the svg
output carries a `stroke-dasharray` attribute. -/
theorem c5_dashed_edges (d : Diagram) (lay : Option String) (e : Edge)
    (he : e ∈ d.edges) (hd : edgeDashed e = true) :
    ((e.type == some "line") = false → "-.->".data <:+: (toMermaid lay d).data) ∧
    ("style=dashed".data <:+: (toGraphviz d).data) ∧
    ("dashed=1".data <:+: (toDrawio d).data) ∧
    (∀ s, toSvgE d = Except.ok s →
      dictMem (nodesDict d) e.fromId = true → dictMem (nodesDict d) e.toId = true →
      "stroke-dasharray".data <:+: s.data) := by
  refine ⟨?_, ?_, ?_, ?_⟩
  · intro ht
    exact tok_trans (mermaid_edge_line_token hd ht)
      (infix_pyJoin "\n" (mermaid_edge_line_mem lay he))
  · exact tok_trans (gv_edge_line_token hd) (infix_pyJoin "\n" (gv_edge_line_mem he))
  · exact drawio_edge_cell_infix he (drawio_edge_cell_token hd)
  · intro s hok hmf hmt
    have hne : (nodesDict d).isEmpty = false := by
      cases hc : nodesDict d with
      | nil =>
        rw [hc] at hmf
        cases hmf
      | cons a as => rfl
    obtain ⟨fn, hfn⟩ := dictMem_some hmf
    obtain ⟨tn, htn⟩ := dictMem_some hmt
    simp only [toSvgE, hne, Bool.false_eq_true, if_false] at hok
    split at hok
    · simp at hok
    · next edgeEls h1 =>
      split at hok
      · simp at hok
      · next nodeEls h2 =>
        injection hok with hs
        subst hs
        obtain ⟨r, hr⟩ := svgEdgesE_ok_elem h1 (mem_sortedEdges he)
        have hnoerr : ∀ er, svgEdgeElem (nodesDict d)
            (-pyMinI ((dictValues (nodesDict d)).map (fun n => n.x.getD 0)) + 50)
            (-pyMinI ((dictValues (nodesDict d)).map (fun n => n.y.getD 0)) + 50) e ≠
            Except.error er := by
          intro er hc
          rw [hc] at hr
          cases hr
        obtain ⟨ls, hls, htok⟩ := svgEdgeElem_dash hfn htn hd hnoerr
        have hmem : ls ∈ edgeEls := svgEdgesE_ok_mem h1 (mem_sortedEdges he) hls
        refine str_tok_right _ (str_tok_left _ ?_)
        exact tok_trans htok (infix_pyJoin "\n" (List.mem_append_left _ hmem))

/-- C5 counterexample: `c5CexDiag` contains a dashed edge (of type
`"line"`), yet the mermaid output contains no `-.->` token anywhere —
the `type == "line"` override replaces the dash arrow with the
undirected `---` token, so the claim as stated is false. -/
theorem c5_counterexample :
    (∃ e ∈ c5CexDiag.edges, edgeDashed e = true) ∧
    ¬ ("-.->".data <:+: (toMermaid none c5CexDiag).data) := by
  decide

/-- C5 witness: a dashed arrow edge with resolvable endpoints produces
the dash token in all four outputs. -/
theorem c5_witness :
    ("-.->".data <:+: (toMermaid none c5WDiag).data) ∧
    ("style=dashed".data <:+: (toGraphviz c5WDiag).data) ∧
    ("dashed=1".data <:+: (toDrawio c5WDiag).data) ∧
    ("stroke-dasharray".data <:+: ((toSvgE c5WDiag).toOption.getD "").data) := by
  have h := c5_dashed_edges c5WDiag none c5WEdge (by decide) (by decide)
  refine ⟨h.1 (by decide), h.2.1, h.2.2.1, ?_⟩
  have hok : toSvgE c5WDiag = Except.ok ((toSvgE c5WDiag).toOption.getD "") := by decide
  exact h.2.2.2 _ hok (by decide) (by decide)

theorem isGrouped_true {d : Diagram} {g : DGroup} {nid : String}
    (hg : g ∈ d.groups) (hmem : nid ∈ g.nodeIds) : isGrouped d nid = true := by
  unfold isGrouped
  refine List.any_eq_true.mpr ⟨g, hg, ?_⟩
  simpa using hmem

theorem pair_mem_sortedNodePairs {d : Diagram} {nid : String} {n : Node}
    (hn : dictGet (nodesDict d) nid = some n) : (nid, n) ∈ sortedNodePairs d := by
  unfold dictGet at hn
  cases hf : (nodesDict d).find? (fun p => p.1 == nid) with
  | none =>
    rw [hf] at hn
    cases hn
  | some pr =>
    rw [hf] at hn
    have h2 : pr.2 = n := by
      injection hn
    have h1 : pr.1 = nid := by
      have := List.find?_some hf
      simpa using this
    have hpr : pr = (nid, n) := by
      cases pr
      simp_all
    rw [← hpr]
    exact (List.perm_insertionSort _ (nodesDict d)).mem_iff.mpr (List.mem_of_find?_eq_some hf)

/-- C7: a node that appears in some group's `nodeIds` is omitted from
mermaid's top-level declarations (every top-level declaration line comes
from a non-grouped node with a different id) and is declared inside its
group's subgraph block, which the output lines include; graphviz, by
contrast, declares the same node both as a top-level node statement and
as a member line inside the group's cluster block. -/
theorem c7_grouping_asymmetry (d : Diagram) (lay : Option String) (g : DGroup)
    (nid : String) (n : Node) (hg : g ∈ d.groups) (hmem : nid ∈ g.nodeIds)
    (hn : dictGet (nodesDict d) nid = some n) :
    (∀ l ∈ mermaidTopDecls d, ∃ p, p ∈ sortedNodePairs d ∧ isGrouped d p.1 = false ∧
        p.1 ≠ nid ∧ l = mermaidNodeLine p.1 p.2) ∧
    ("    " ++ mermaidNodeLine nid n) ∈ mermaidGroupBlock d g ∧
    ("    " ++ mermaidNodeLine nid n) ∈ toMermaidLines lay d ∧
    (gvNodeLine nid n ∈ toGraphvizLines d) ∧
    (("        " ++ nid ++ ";") ∈ toGraphvizLines d) := by
  have hgrp : isGrouped d nid = true := isGrouped_true hg hmem
  have hblock : ("    " ++ mermaidNodeLine nid n) ∈ mermaidGroupBlock d g := by
    unfold mermaidGroupBlock
    refine List.mem_append_left _ (List.mem_append_right _ ?_)
    refine List.mem_filterMap.mpr ⟨nid, mem_sortStrings hmem, ?_⟩
    rw [hn]
    rfl
  refine ⟨?_, hblock, ?_, ?_, ?_⟩
  · intro l hl
    obtain ⟨p, hp, hfp⟩ := List.mem_filterMap.mp hl
    by_cases hgp : isGrouped d p.1 = true
    · rw [if_pos hgp] at hfp
      cases hfp
    · have hgp' : isGrouped d p.1 = false := by simpa using hgp
      rw [if_neg (by simp [hgp'])] at hfp
      injection hfp with hline
      refine ⟨p, hp, hgp', ?_, hline.symm⟩
      intro hc
      rw [hc, hgrp] at hgp'
      cases hgp'
  · unfold toMermaidLines
    refine List.mem_append_left _ ?_
    refine List.mem_append_left _ ?_
    refine List.mem_append_left _ ?_
    refine List.mem_append_right _ ?_
    rw [List.mem_flatten]
    exact ⟨mermaidGroupBlock d g,
      List.mem_map_of_mem (mermaidGroupBlock d) (mem_sortedGroups hg), hblock⟩
  · unfold toGraphvizLines
    refine List.mem_append_left _ ?_
    refine List.mem_append_left _ ?_
    refine List.mem_append_left _ ?_
    refine List.mem_append_left _ ?_
    refine List.mem_append_right _ ?_
    have hpm := pair_mem_sortedNodePairs hn
    exact List.mem_map_of_mem (fun p => gvNodeLine p.1 p.2) hpm
  · unfold toGraphvizLines
    refine List.mem_append_left _ ?_
    refine List.mem_append_right _ ?_
    rw [List.mem_flatten]
    refine ⟨gvGroupBlock g, List.mem_map_of_mem gvGroupBlock (mem_sortedGroups hg), ?_⟩
    unfold gvGroupBlock
    refine List.mem_append_left _ (List.mem_append_right _ ?_)
    exact List.mem_map_of_mem (fun nid2 => "        " ++ nid2 ++ ";") (mem_sortStrings hmem)

/-- C7 witness: in `c7WDiag`, node `n1` belongs to group `grp`; its
subgraph declaration line appears in the mermaid output, and both its
top-level statement and its cluster member line appear in the graphviz
output. -/
theorem c7_witness :
    ("    " ++ mermaidNodeLine "n1" c7WNode) ∈ toMermaidLines none c7WDiag ∧
    gvNodeLine "n1" c7WNode ∈ toGraphvizLines c7WDiag ∧
    ("        " ++ "n1" ++ ";") ∈ toGraphvizLines c7WDiag := by
  have h := c7_grouping_asymmetry c7WDiag none
    { id := some "grp", label := some "My Group", nodeIds := ["n1"] } "n1" c7WNode
    (by decide) (by decide) (by decide)
  exact ⟨h.2.2.1, h.2.2.2.1, h.2.2.2.2⟩

theorem svgEdgeElem_some_resolved {m : List (String × Node)} {ox oy : Int} {e : Edge}
    {s : String} (h : svgEdgeElem m ox oy e = Except.ok (some s)) :
    (dictGet m e.fromId).isSome ∧ (dictGet m e.toId).isSome := by
  cases hf : dictGet m e.fromId with
  | none =>
    rw [show svgEdgeElem m ox oy e = Except.ok none by
      simp [svgEdgeElem, hf]] at h
    injection h with hc
    cases hc
  | some fn =>
    cases ht : dictGet m e.toId with
    | none =>
      rw [show svgEdgeElem m ox oy e = Except.ok none by
        simp [svgEdgeElem, hf, ht]] at h
      injection h with hc
      cases hc
    | some tn => exact ⟨rfl, rfl⟩


theorem svgEdgesE_mem_source {m : List (String × Node)} {ox oy : Int} :
    ∀ {es : List Edge} {outs : List String},
      svgEdgesE m ox oy es = Except.ok outs →
      ∀ s ∈ outs, ∃ e2, e2 ∈ es ∧ svgEdgeElem m ox oy e2 = Except.ok (some s) := by
  intro es
  induction es with
  | nil =>
    intro outs hok s hs
    unfold svgEdgesE at hok
    cases hok
    cases hs
  | cons e' rest ih =>
    intro outs hok s hs
    unfold svgEdgesE at hok
    split at hok
    · simp at hok
    · next r h1 =>
      split at hok
      · simp at hok
      · next rs h2 =>
        cases r with
        | none =>
          cases hok
          obtain ⟨e2, he2, helem⟩ := ih h2 s hs
          exact ⟨e2, List.mem_cons_of_mem e' he2, helem⟩
        | some s' =>
          cases hok
          rcases List.mem_cons.mp hs with rfl | hmem
          · exact ⟨e', List.mem_cons_self e' rest, h1⟩
          · obtain ⟨e2, he2, helem⟩ := ih h2 s hmem
            exact ⟨e2, List.mem_cons_of_mem e' he2, helem⟩

theorem mermaid_edge_line_endpoints (e : Edge) :
    e.fromId.data <:+: (mermaidEdgeLine e).data ∧
    e.toId.data <:+: (mermaidEdgeLine e).data := by
  simp only [mermaidEdgeLine]
  by_cases hl : (e.label.getD "").isEmpty
  · simp only [hl, Bool.not_true, Bool.false_eq_true, if_false]
    constructor
    · exact str_tok_right _ (str_tok_right _ (str_tok_right _ (str_tok_right _
        (str_tok_left "    " (str_tok_self e.fromId)))))
    · exact str_tok_left _ (str_tok_self e.toId)
  · have hl' : (e.label.getD "").isEmpty = false := by simpa using hl
    simp only [hl', Bool.not_false, if_true]
    constructor
    · exact str_tok_right _ (str_tok_right _ (str_tok_right _ (str_tok_right _
        (str_tok_right _ (str_tok_right _
          (str_tok_left "    " (str_tok_self e.fromId)))))))
    · exact str_tok_left _ (str_tok_self e.toId)

theorem gv_edge_line_endpoints (e : Edge) :
    e.fromId.data <:+: (gvEdgeLine e).data ∧
    e.toId.data <:+: (gvEdgeLine e).data := by
  simp only [gvEdgeLine]
  constructor
  · exact str_tok_right _ (str_tok_right _ (str_tok_right _ (str_tok_right _
      (str_tok_left "    " (str_tok_self e.fromId)))))
  · exact str_tok_right _ (str_tok_right _ (str_tok_left _ (str_tok_self e.toId)))

/-- C8: an edge whose `from` or `to` id resolves to no node is skipped
silently by `to_svg` — its per-edge rendering is `ok none` (no line
element, no exception), and every line element the svg edge loop does
emit comes from an edge whose endpoints both resolve — while mermaid and
graphviz still emit the edge statement with the dangling identifiers
appearing literally in the line. -/
theorem c8_dangling_edges (d : Diagram) (lay : Option String) (e : Edge)
    (he : e ∈ d.edges)
    (hd : dictGet (nodesDict d) e.fromId = none ∨ dictGet (nodesDict d) e.toId = none) :
    (∀ ox oy, svgEdgeElem (nodesDict d) ox oy e = Except.ok none) ∧
    (∀ ox oy outs, svgEdgesE (nodesDict d) ox oy (sortedEdges d) = Except.ok outs →
      ∀ s ∈ outs, ∃ e2, e2 ∈ d.edges ∧
        (dictGet (nodesDict d) e2.fromId).isSome ∧
        (dictGet (nodesDict d) e2.toId).isSome ∧
        svgEdgeElem (nodesDict d) ox oy e2 = Except.ok (some s)) ∧
    (mermaidEdgeLine e ∈ toMermaidLines lay d ∧
      e.fromId.data <:+: (mermaidEdgeLine e).data ∧
      e.toId.data <:+: (mermaidEdgeLine e).data) ∧
    (gvEdgeLine e ∈ toGraphvizLines d ∧
      e.fromId.data <:+: (gvEdgeLine e).data ∧
      e.toId.data <:+: (gvEdgeLine e).data) := by
  refine ⟨?_, ?_, ?_, ?_⟩
  · intro ox oy
    rcases hd with h | h
    · simp [svgEdgeElem, h]
    · cases hf : dictGet (nodesDict d) e.fromId with
      | none => simp [svgEdgeElem, hf]
      | some fn => simp [svgEdgeElem, hf, h]
  · intro ox oy outs hok s hs
    obtain ⟨e2, he2, helem⟩ := svgEdgesE_mem_source hok s hs
    obtain ⟨h1, h2⟩ := svgEdgeElem_some_resolved helem
    exact ⟨e2, (List.perm_insertionSort _ d.edges).mem_iff.mp he2, h1, h2, helem⟩
  · exact ⟨mermaid_edge_line_mem lay he, mermaid_edge_line_endpoints e⟩
  · exact ⟨gv_edge_line_mem he, gv_edge_line_endpoints e⟩

/-- C8 witness: the edge of `c8WDiag` points at the nonexistent node
`"ghost"`; its svg rendering is the silent skip `ok none`, yet its
mermaid and graphviz edge lines exist and contain `"ghost"` literally. -/
theorem c8_witness :
    svgEdgeElem (nodesDict c8WDiag) 0 0 c8WEdge = Except.ok none ∧
    mermaidEdgeLine c8WEdge ∈ toMermaidLines none c8WDiag ∧
    "ghost".data <:+: (mermaidEdgeLine c8WEdge).data ∧
    gvEdgeLine c8WEdge ∈ toGraphvizLines c8WDiag ∧
    "ghost".data <:+: (gvEdgeLine c8WEdge).data := by
  have h := c8_dangling_edges c8WDiag none c8WEdge (by decide) (Or.inr (by decide))
  exact ⟨h.1 0 0, h.2.2.1.1, h.2.2.1.2.2, h.2.2.2.1, h.2.2.2.2.2⟩

theorem svgNodeElems_ok_iff (nid : String) (n : Node) (ox oy : Int) :
    (∃ r, svgNodeElems nid n ox oy = Except.ok r) ↔ (n.x.isSome ∧ n.y.isSome) := by
  cases hx : n.x <;> cases hy : n.y <;> simp [svgNodeElems, hx, hy]

theorem svgNodesE_ok_iff (ox oy : Int) :
    ∀ (ps : List (String × Node)),
      (∃ rs, svgNodesE ox oy ps = Except.ok rs) ↔
        ∀ p ∈ ps, p.2.x.isSome ∧ p.2.y.isSome := by
  intro ps
  induction ps with
  | nil => simp [svgNodesE]
  | cons p rest ih =>
    constructor
    · rintro ⟨rs, hok⟩ q hq
      unfold svgNodesE at hok
      split at hok
      · simp at hok
      · next r h1 =>
        split at hok
        · simp at hok
        · next rs' h2 =>
          rcases List.mem_cons.mp hq with rfl | hmem
          · exact (svgNodeElems_ok_iff q.1 q.2 ox oy).mp ⟨r, h1⟩
          · exact (ih.mp ⟨rs', h2⟩) q hmem
    · intro hall
      obtain ⟨r, hr⟩ := (svgNodeElems_ok_iff p.1 p.2 ox oy).mpr
        (hall p (List.mem_cons_self p rest))
      obtain ⟨rs, hrs⟩ := ih.mpr (fun q hq => hall q (List.mem_cons_of_mem p hq))
      exact ⟨r ++ rs, by simp [svgNodesE, hr, hrs]⟩

theorem dictGet_mem {m : List (String × Node)} {k : String} {fn : Node}
    (h : dictGet m k = some fn) : ∃ q ∈ m, q.2 = fn := by
  unfold dictGet at h
  cases hf : m.find? (fun p => p.1 == k) with
  | none =>
    rw [hf] at h
    cases h
  | some pr =>
    rw [hf] at h
    refine ⟨pr, List.mem_of_find?_eq_some hf, ?_⟩
    injection h

theorem svgEdgeElem_ok_of_all {m : List (String × Node)} (ox oy : Int) (e : Edge)
    (hall : ∀ q ∈ m, q.2.x.isSome ∧ q.2.y.isSome) :
    ∃ r, svgEdgeElem m ox oy e = Except.ok r := by
  cases hf : dictGet m e.fromId with
  | none => exact ⟨none, by simp [svgEdgeElem, hf]⟩
  | some fn =>
    cases ht : dictGet m e.toId with
    | none => exact ⟨none, by simp [svgEdgeElem, hf, ht]⟩
    | some tn =>
      obtain ⟨qf, hqf, hqf2⟩ := dictGet_mem hf
      obtain ⟨qt, hqt, hqt2⟩ := dictGet_mem ht
      have h1 := hall qf hqf
      have h2 := hall qt hqt
      rw [hqf2] at h1
      rw [hqt2] at h2
      obtain ⟨fx, hfx⟩ := Option.isSome_iff_exists.mp h1.1
      obtain ⟨fy, hfy⟩ := Option.isSome_iff_exists.mp h1.2
      obtain ⟨tx, htx⟩ := Option.isSome_iff_exists.mp h2.1
      obtain ⟨ty, hty⟩ := Option.isSome_iff_exists.mp h2.2
      exact ⟨_, by
        simp only [svgEdgeElem, hf, ht, hfx, hfy, htx, hty]
        rfl⟩

theorem svgEdgesE_ok_of_all {m : List (String × Node)} (ox oy : Int)
    (hall : ∀ q ∈ m, q.2.x.isSome ∧ q.2.y.isSome) :
    ∀ (es : List Edge), ∃ rs, svgEdgesE m ox oy es = Except.ok rs := by
  intro es
  induction es with
  | nil => exact ⟨[], rfl⟩
  | cons e rest ih =>
    obtain ⟨r, hr⟩ := svgEdgeElem_ok_of_all ox oy e hall
    obtain ⟨rs, hrs⟩ := ih
    cases r with
    | none =>
      refine ⟨rs, ?_⟩
      unfold svgEdgesE
      rw [hr, hrs]
    | some s =>
      refine ⟨s :: rs, ?_⟩
      unfold svgEdgesE
      rw [hr, hrs]

/-- C10: for a diagram with at least one node, `to_svg` succeeds exactly
when every node carries explicit `x` and `y` (and hence both endpoints of
every rendered edge do too) — the drawing loops index `x`/`y` directly —
while `to_drawio` reads the same geometry through defaults
(`x=0, y=0, width=120, height=60`) and renders any node as if those
defaults were filled in. -/
theorem c10_svg_requires_coords (d : Diagram) (hne : d.nodes ≠ []) :
    ((toSvgE d).isOk = true ↔
      ((∀ p ∈ nodesDict d, p.2.x.isSome ∧ p.2.y.isSome) ∧
       (∀ e ∈ d.edges, ∀ fn tn, dictGet (nodesDict d) e.fromId = some fn →
          dictGet (nodesDict d) e.toId = some tn →
          fn.x.isSome ∧ fn.y.isSome ∧ tn.x.isSome ∧ tn.y.isSome))) ∧
    (∀ nid n, drawioNodeCell nid n = drawioNodeCell nid (fillGeometryDefaults n)) := by
  have hnemp : (nodesDict d).isEmpty = false := by
    have := nodesDict_ne_nil hne
    cases hc : nodesDict d with
    | nil => exact absurd hc this
    | cons a as => rfl
  constructor
  · constructor
    · intro hok
      simp only [toSvgE, hnemp, Bool.false_eq_true, if_false] at hok
      split at hok
      · simp [Except.isOk, Except.toBool] at hok
      · next edgeEls h1 =>
        split at hok
        · simp [Except.isOk, Except.toBool] at hok
        · next nodeEls h2 =>
          have hnodes : ∀ p ∈ nodesDict d, p.2.x.isSome ∧ p.2.y.isSome := by
            intro p hp
            exact (svgNodesE_ok_iff _ _ (sortedNodePairs d)).mp ⟨nodeEls, h2⟩ p
              ((List.perm_insertionSort _ (nodesDict d)).mem_iff.mpr hp)
          refine ⟨hnodes, ?_⟩
          intro e _ fn tn hfn htn
          obtain ⟨qf, hqf, hqf2⟩ := dictGet_mem hfn
          obtain ⟨qt, hqt, hqt2⟩ := dictGet_mem htn
          have h3 := hnodes qf hqf
          have h4 := hnodes qt hqt
          rw [hqf2] at h3
          rw [hqt2] at h4
          exact ⟨h3.1, h3.2, h4.1, h4.2⟩
    · rintro ⟨hnodes, -⟩
      simp only [toSvgE, hnemp, Bool.false_eq_true, if_false]
      obtain ⟨eEls, hE⟩ := svgEdgesE_ok_of_all _ _ hnodes (sortedEdges d)
      obtain ⟨nEls, hN⟩ := (svgNodesE_ok_iff _ _ (sortedNodePairs d)).mpr
        (fun p hp => hnodes p ((List.perm_insertionSort _ (nodesDict d)).mem_iff.mp hp))
      rw [hE, hN]
      rfl
  · intro nid n
    rfl

/-- C10 witness: `c10MissDiag` has a node without `x`, so `to_svg`
raises, while the same diagram with complete geometry succeeds; drawio
renders the geometry-less node exactly as its defaults-filled copy. -/
theorem c10_witness :
    (toSvgE c10MissDiag).isOk = false ∧
    (toSvgE c10OkDiag).isOk = true ∧
    drawioNodeCell "b" { id := "b", y := some 5 } =
      drawioNodeCell "b" (fillGeometryDefaults { id := "b", y := some 5 }) := by
  have h1 := c10_svg_requires_coords c10MissDiag (by decide)
  have h2 := c10_svg_requires_coords c10OkDiag (by decide)
  refine ⟨?_, ?_, h1.2 "b" { id := "b", y := some 5 }⟩
  · by_contra hc
    have hok : (toSvgE c10MissDiag).isOk = true := by
      cases hvv : (toSvgE c10MissDiag).isOk
      · exact absurd hvv hc
      · rfl
    have := (h1.1.mp hok).1
    have hb := this ("b", { id := "b", y := some 5 }) (by decide)
    simp at hb
  · have hnodes : ∀ p ∈ nodesDict c10OkDiag, p.2.x.isSome ∧ p.2.y.isSome := by decide
    have hedges : ∀ e ∈ c10OkDiag.edges, ∀ fn tn,
        dictGet (nodesDict c10OkDiag) e.fromId = some fn →
        dictGet (nodesDict c10OkDiag) e.toId = some tn →
        fn.x.isSome ∧ fn.y.isSome ∧ tn.x.isSome ∧ tn.y.isSome := by
      intro e _ fn tn hfn htn
      obtain ⟨qf, hqf, hqf2⟩ := dictGet_mem hfn
      obtain ⟨qt, hqt, hqt2⟩ := dictGet_mem htn
      have h3 := hnodes qf hqf
      have h4 := hnodes qt hqt
      rw [hqf2] at h3
      rw [hqt2] at h4
      exact ⟨h3.1, h3.2, h4.1, h4.2⟩
    exact h2.1.mpr ⟨hnodes, hedges⟩

theorem isEmpty_eq_of_perm {α : Type} {l1 l2 : List α} (h : l1.Perm l2) :
    l1.isEmpty = l2.isEmpty := by
  have hl := h.length_eq
  cases l1 <;> cases l2 <;> simp_all

theorem foldl_dictInsert_fresh (ns : List Node) :
    ∀ (acc : List (String × Node)),
      (∀ n ∈ ns, ∀ p ∈ acc, p.1 ≠ n.id) → (ns.map (fun n => n.id)).Nodup →
      ns.foldl (fun m n => dictInsert m n.id n) acc =
        acc ++ ns.map (fun n => (n.id, n)) := by
  induction ns with
  | nil =>
    intro acc _ _
    simp
  | cons n rest ih =>
    intro acc hfresh hnd
    have hins : dictInsert acc n.id n = acc ++ [(n.id, n)] := by
      unfold dictInsert
      have hany : acc.any (fun p => p.1 == n.id) = false := by
        rw [List.any_eq_false]
        intro p hp
        simpa using hfresh n (List.mem_cons_self n rest) p hp
      rw [hany]
      simp
    rw [List.foldl_cons, hins, ih]
    · simp
    · intro m hm p hp
      rcases List.mem_append.mp hp with hpa | hps
      · exact hfresh m (List.mem_cons_of_mem n hm) p hpa
      · have hpe : p = (n.id, n) := by simpa using hps
        rw [hpe]
        have hnodup := List.nodup_cons.mp hnd
        intro hc
        have hcm : n.id = m.id := hc
        exact hnodup.1 (List.mem_map.mpr ⟨m, hm, hcm.symm⟩)
    · exact (List.nodup_cons.mp hnd).2

theorem nodesDict_eq {d : Diagram} (hnd : (d.nodes.map (fun n => n.id)).Nodup) :
    nodesDict d = d.nodes.map (fun n => (n.id, n)) := by
  unfold nodesDict
  rw [foldl_dictInsert_fresh d.nodes [] (by intro n _ p hp; cases hp) hnd]
  simp

theorem svgEdgeElem_congr {m1 m2 : List (String × Node)}
    (h : ∀ k, dictGet m1 k = dictGet m2 k) (ox oy : Int) (e : Edge) :
    svgEdgeElem m1 ox oy e = svgEdgeElem m2 ox oy e := by
  unfold svgEdgeElem
  rw [h e.fromId, h e.toId]

theorem svgEdgesE_congr {m1 m2 : List (String × Node)}
    (h : ∀ k, dictGet m1 k = dictGet m2 k) (ox oy : Int) :
    ∀ (es : List Edge), svgEdgesE m1 ox oy es = svgEdgesE m2 ox oy es := by
  intro es
  induction es with
  | nil => rfl
  | cons e rest ih =>
    unfold svgEdgesE
    rw [svgEdgeElem_congr h ox oy e, ih]

/-- C3 (amended): two diagrams with the same title and the same sets of
nodes, edges and groups — with node ids, edge ids and group ids each
pairwise distinct — render byte-identically in all four formats,
whatever the input order. -/
theorem c3_order_independence (d1 d2 : Diagram) (lay : Option String)
    (hperm_n : d1.nodes.Perm d2.nodes) (hperm_e : d1.edges.Perm d2.edges)
    (hperm_g : d1.groups.Perm d2.groups) (htitle : d1.title = d2.title)
    (hnd_n : (d1.nodes.map (fun n => n.id)).Nodup)
    (hnd_e : (d1.edges.map (fun e => e.id)).Nodup)
    (hnd_g : (d1.groups.map (fun g => g.id.getD "")).Nodup) :
    toMermaid lay d1 = toMermaid lay d2 ∧
    toGraphviz d1 = toGraphviz d2 ∧
    toDrawio d1 = toDrawio d2 ∧
    toSvgE d1 = toSvgE d2 := by
  have hnd_n2 : (d2.nodes.map (fun n => n.id)).Nodup :=
    ((hperm_n.map (fun n => n.id)).nodup_iff).mp hnd_n
  have hd1 : nodesDict d1 = d1.nodes.map (fun n => (n.id, n)) := nodesDict_eq hnd_n
  have hd2 : nodesDict d2 = d2.nodes.map (fun n => (n.id, n)) := nodesDict_eq hnd_n2
  have hpermPairs :
      (d1.nodes.map (fun n => (n.id, n))).Perm (d2.nodes.map (fun n => (n.id, n))) :=
    hperm_n.map _
  have hkeys : ((d1.nodes.map (fun n => (n.id, n))).map Prod.fst).Nodup := by
    rw [List.map_map]
    exact hnd_n
  have hpairs : sortedNodePairs d1 = sortedNodePairs d2 := by
    unfold sortedNodePairs
    rw [hd1, hd2]
    exact insertionSort_key_eq Prod.fst hpermPairs hkeys
  have hedges : sortedEdges d1 = sortedEdges d2 := by
    unfold sortedEdges
    exact insertionSort_key_eq Edge.id hperm_e hnd_e
  have hgroups : sortedGroups d1 = sortedGroups d2 := by
    unfold sortedGroups
    exact insertionSort_key_eq (fun g => g.id.getD "") hperm_g hnd_g
  have hgets : ∀ k, dictGet (nodesDict d1) k = dictGet (nodesDict d2) k := by
    intro k
    unfold dictGet
    rw [hd1, hd2, find?_key_perm Prod.fst hpermPairs hkeys k]
  have hgrp : ∀ nid, isGrouped d1 nid = isGrouped d2 nid := fun _ =>
    any_eq_of_perm hperm_g _
  have hv1 : dictValues (nodesDict d1) = d1.nodes := by
    rw [hd1]
    unfold dictValues
    rw [List.map_map]
    exact List.map_id' _
  have hv2 : dictValues (nodesDict d2) = d2.nodes := by
    rw [hd2]
    unfold dictValues
    rw [List.map_map]
    exact List.map_id' _
  have hvalsPerm : (dictValues (nodesDict d1)).Perm (dictValues (nodesDict d2)) := by
    rw [hv1, hv2]
    exact hperm_n
  have hisE : (nodesDict d1).isEmpty = (nodesDict d2).isEmpty := by
    rw [hd1, hd2]
    exact isEmpty_eq_of_perm hpermPairs
  have hmx : pyMaxI ((dictValues (nodesDict d1)).map (fun n => n.x.getD 0)) =
      pyMaxI ((dictValues (nodesDict d2)).map (fun n => n.x.getD 0)) :=
    pyMaxI_perm (hvalsPerm.map _)
  have hnx : pyMinI ((dictValues (nodesDict d1)).map (fun n => n.x.getD 0)) =
      pyMinI ((dictValues (nodesDict d2)).map (fun n => n.x.getD 0)) :=
    pyMinI_perm (hvalsPerm.map _)
  have hmy : pyMaxI ((dictValues (nodesDict d1)).map (fun n => n.y.getD 0)) =
      pyMaxI ((dictValues (nodesDict d2)).map (fun n => n.y.getD 0)) :=
    pyMaxI_perm (hvalsPerm.map _)
  have hny : pyMinI ((dictValues (nodesDict d1)).map (fun n => n.y.getD 0)) =
      pyMinI ((dictValues (nodesDict d2)).map (fun n => n.y.getD 0)) :=
    pyMinI_perm (hvalsPerm.map _)
  have hmaxX : pyMaxI ((dictValues (nodesDict d1)).map
        (fun n => n.x.getD 0 + n.width.getD 120)) =
      pyMaxI ((dictValues (nodesDict d2)).map
        (fun n => n.x.getD 0 + n.width.getD 120)) :=
    pyMaxI_perm (hvalsPerm.map _)
  have hmaxY : pyMaxI ((dictValues (nodesDict d1)).map
        (fun n => n.y.getD 0 + n.height.getD 60)) =
      pyMaxI ((dictValues (nodesDict d2)).map
        (fun n => n.y.getD 0 + n.height.getD 60)) :=
    pyMaxI_perm (hvalsPerm.map _)
  have hdir : mermaidDirection lay d1 = mermaidDirection lay d2 := by
    simp only [mermaidDirection, hisE, hmx, hnx, hmy, hny]
  have hTitleL : mermaidTitleLines d1 = mermaidTitleLines d2 := by
    unfold mermaidTitleLines
    rw [htitle]
  have hTop : mermaidTopDecls d1 = mermaidTopDecls d2 := by
    unfold mermaidTopDecls
    rw [hpairs]
    have hfun : (fun p : String × Node =>
        if isGrouped d1 p.1 then none else some (mermaidNodeLine p.1 p.2)) =
        (fun p : String × Node =>
        if isGrouped d2 p.1 then none else some (mermaidNodeLine p.1 p.2)) := by
      funext p
      rw [hgrp p.1]
    rw [hfun]
  have hBlocks : mermaidGroupBlock d1 = mermaidGroupBlock d2 := by
    funext g
    unfold mermaidGroupBlock
    simp only [hgets]
  have hStyles : mermaidStyleLines d1 = mermaidStyleLines d2 := by
    unfold mermaidStyleLines
    rw [hpairs]
  have hMermL : toMermaidLines lay d1 = toMermaidLines lay d2 := by
    unfold toMermaidLines
    rw [hTitleL, hdir, hTop, hgroups, hBlocks, hedges, hStyles]
  refine ⟨?_, ?_, ?_, ?_⟩
  · unfold toMermaid
    rw [hMermL]
  · unfold toGraphviz toGraphvizLines
    rw [htitle, hpairs, hedges, hgroups]
  · unfold toDrawio
    rw [hpairs, hedges]
  · have hsvgE := svgEdgesE_congr hgets
    simp only [toSvgE, hisE, hnx, hny, hmaxX, hmaxY, hsvgE, hedges, hpairs]

/-- C3 counterexample: `c3Diag1` and `c3Diag2` hold the same sets of
nodes, edges (two distinct edges sharing the id `"e"`), groups and title,
differing only in edge input order — yet mermaid output differs, because
the stable sort preserves the input order of equal edge ids.  The claim
as stated (for *every* pair of same-set diagrams) is therefore false. -/
theorem c3_counterexample :
    c3Diag1.nodes = c3Diag2.nodes ∧
    c3Diag1.edges.Perm c3Diag2.edges ∧
    c3Diag1.groups = c3Diag2.groups ∧
    c3Diag1.title = c3Diag2.title ∧
    toMermaid none c3Diag1 ≠ toMermaid none c3Diag2 := by
  refine ⟨rfl, ?_, rfl, rfl, ?_⟩
  · decide
  · decide

/-- C3 witness: two concrete diagrams with the same contents (distinct
ids) in different input orders render byte-identically in all four
formats. -/
theorem c3_witness :
    toMermaid none c3WDiag1 = toMermaid none c3WDiag2 ∧
    toGraphviz c3WDiag1 = toGraphviz c3WDiag2 ∧
    toDrawio c3WDiag1 = toDrawio c3WDiag2 ∧
    toSvgE c3WDiag1 = toSvgE c3WDiag2 :=
  c3_order_independence c3WDiag1 c3WDiag2 none (by decide) (by decide) (by decide)
    (by decide) (by decide) (by decide) (by decide)
